import Mathlib

/-
Verification development for the gardengenie backend.

The Python source is shallowly embedded: JSON / Python values are modelled
by the inductive type `Json`, Python truthiness by `pyTruthy`, string
stripping by `pyStrip`, and each relevant source function by a Lean
definition of the same name.  Exceptions that can escape a Python function
are modelled with `Except String`.
-/

/-- Model of a Python JSON value (`json.loads` output and the dict payloads
passed around by the service).  Numbers are modelled as integers, which is
enough for every value the claims touch. -/
inductive Json where
  | null
  | bool (b : Bool)
  | num (n : Int)
  | str (s : String)
  | arr (xs : List Json)
  | obj (fields : List (String × Json))

/-- Python truthiness (`bool(x)`) of a JSON value. -/
def pyTruthy : Json → Bool
  | Json.null => false
  | Json.bool b => b
  | Json.num n => n != 0
  | Json.str s => !s.toList.isEmpty
  | Json.arr xs => !xs.isEmpty
  | Json.obj fs => !fs.isEmpty

/-- Python `a or b` on JSON values. -/
def pyOr (a b : Json) : Json := if pyTruthy a then a else b

/-- `d.get(k)` on a dict given as its field list: first binding, else null
(Python None and JSON null are both `Json.null`). -/
def objGet (fields : List (String × Json)) (k : String) : Json :=
  (List.lookup k fields).getD Json.null

/-- `d.get(k, default)` on a dict given as its field list. -/
def objGetD (fields : List (String × Json)) (k : String) (d : Json) : Json :=
  (List.lookup k fields).getD d

/-- `x.get(k)` on an arbitrary value: AttributeError when `x` is not a dict. -/
def pyDictGet (j : Json) (k : String) : Except String Json :=
  match j with
  | Json.obj fs => Except.ok (objGet fs k)
  | _ => Except.error "AttributeError: get"

/-- `x[k]` subscription with a string key: KeyError on a dict without the
key, TypeError on non-dicts. -/
def pyIndex (j : Json) (k : String) : Except String Json :=
  match j with
  | Json.obj fs =>
    match List.lookup k fs with
    | some v => Except.ok v
    | none => Except.error ("KeyError: " ++ k)
  | _ => Except.error "TypeError: not subscriptable"

/-- Python `k in x` for a string `k`: key membership for dicts, element
equality for lists, substring test for strings, TypeError otherwise. -/
def pyContains (j : Json) (k : String) : Except String Bool :=
  match j with
  | Json.obj fs => Except.ok (fs.any (fun p => p.1 == k))
  | Json.arr xs => Except.ok (xs.any (fun x => match x with
      | Json.str s => s == k
      | _ => false))
  | Json.str s => Except.ok (decide (k.toList <:+: s.toList))
  | _ => Except.error "TypeError: argument not iterable"

/-- Python `j in l` where `l` is a list of strings: true exactly for a JSON
string equal to a member. -/
def jsonInStrList (j : Json) (l : List String) : Bool :=
  match j with
  | Json.str s => l.contains s
  | _ => false

/-- The string payload of a JSON string (only used where the source has
already checked `isinstance(x, str)`). -/
def jsonStr : Json → String
  | Json.str s => s
  | _ => ""

/-- ASCII whitespace as recognised by Python `str.strip` and by the `\s`
class of the `re` module. -/
def pyIsSpace (c : Char) : Bool :=
  c == ' ' || c == '\t' || c == '\n' || c == '\r' ||
  c == Char.ofNat 11 || c == Char.ofNat 12

/-- Drop leading Python whitespace from a character list. -/
def stripLeft (l : List Char) : List Char := l.dropWhile pyIsSpace

/-- Drop trailing Python whitespace from a character list. -/
def dropRightSpace (l : List Char) : List Char :=
  (l.reverse.dropWhile pyIsSpace).reverse

/-- Python `str.strip()` on a character list. -/
def stripList (l : List Char) : List Char := dropRightSpace (stripLeft l)

/-- Python `str.strip()`. -/
def pyStrip (s : String) : String := String.mk (stripList s.toList)

/-- Python `str.rstrip()`. -/
def pyRstrip (s : String) : String := String.mk (dropRightSpace s.toList)

/- ----------------------------------------------------------------------
Model Response Extractor (app/services/llm_base.py, extract_json_from_response).

The regex search for the pattern matching a fenced code block
(three backticks, an optional case-insensitive json tag, whitespace, a lazy
capture, whitespace, three backticks) is implemented directly: `fenceSearch`
scans for the leftmost position where the block opens, and `findGroup`
realises the lazy capture by stopping at the first position from which
optional whitespace followed by three closing backticks matches.
---------------------------------------------------------------------- -/

/-- The backtick character. -/
def tickChar : Char := Char.ofNat 96

/-- Whether a character list begins with three backticks. -/
def startsWithTicks : List Char → Bool
  | a :: b :: c :: _ => a == tickChar && b == tickChar && c == tickChar
  | _ => false

/-- Whether three consecutive backticks occur anywhere in the list. -/
def containsTicks : List Char → Bool
  | [] => false
  | c :: r => startsWithTicks (c :: r) || containsTicks r

/-- Whether the remainder of the pattern (optional whitespace then three
closing backticks) matches at the head of the list. -/
def closesAt : List Char → Bool
  | [] => false
  | c :: r =>
    if startsWithTicks (c :: r) then true
    else if pyIsSpace c then closesAt r else false

/-- The lazy capture group: the shortest prefix after which the closing
part of the pattern matches; none when no closing exists. -/
def findGroup : List Char → Option (List Char)
  | [] => none
  | c :: r =>
    if closesAt (c :: r) then some []
    else (findGroup r).map (fun g => c :: g)

/-- Consume an optional case-insensitive `json` tag. -/
def dropJsonCI : List Char → List Char
  | a :: b :: c :: d :: rest =>
    if a.toLower == 'j' && b.toLower == 's' && c.toLower == 'o' && d.toLower == 'n'
    then rest else a :: b :: c :: d :: rest
  | l => l

/-- Try to match the fenced-block pattern at the head of the list,
returning the captured group. -/
def tryOpen : List Char → Option (List Char)
  | a :: b :: c :: rest =>
    if a == tickChar && b == tickChar && c == tickChar then
      findGroup ((dropJsonCI rest).dropWhile pyIsSpace)
    else none
  | _ => none

/-- `re.search` for the fenced-block pattern: the match at the leftmost
position where one exists. -/
def fenceSearch : List Char → Option (List Char)
  | [] => none
  | c :: r =>
    match tryOpen (c :: r) with
    | some g => some g
    | none => fenceSearch r

/-- extract_json_from_response (app/services/llm_base.py): the captured
group of the first fenced code block, stripped, when one is present;
otherwise the stripped raw text. -/
def extract_json_from_response (content : String) : String :=
  match fenceSearch content.toList with
  | some g => String.mk (stripList g)
  | none => pyStrip content

/-- Analysis helper: the fenced-block pattern matches somewhere in the list,
expressed without the search recursion (an opening triple of backticks
followed, later, by another triple). -/
def hasFence : List Char → Bool
  | [] => false
  | c :: r => (startsWithTicks (c :: r) && containsTicks ((c :: r).drop 3)) || hasFence r


/- ----------------------------------------------------------------------
Care Structure Validator (app/database/supabase_client.py,
validate_care_structure).  Error / warning messages are modelled by one
constructor per message site; positions are the 1-based step positions
that appear in the message text.
---------------------------------------------------------------------- -/

/-- Identity of one validation message of validate_care_structure. -/
inductive VMsg where
  | notDict
  | emptyDict
  | phaseNotList (phase : String)
  | phaseEmpty (phase : String)
  | stepNotDict (phase : String) (pos : Nat)
  | missingStep (phase : String) (pos : Nat)
  | invalidPriority (phase : String) (pos : Nat)
  | noTiming (phase : String) (pos : Nat)
  | noValidInstructions
  deriving DecidableEq

/-- The result dict of validate_care_structure. -/
structure VResult where
  valid : Bool
  errors : List VMsg
  warnings : List VMsg
  deriving DecidableEq

/-- Accumulator of the validation loop: no error raised so far, errors,
warnings, and the running total_instructions counter. -/
structure VAcc where
  ok : Bool
  errors : List VMsg
  warnings : List VMsg
  count : Nat
  deriving DecidableEq

/-- Sequential composition of two validation-loop segments. -/
def vappend (a b : VAcc) : VAcc :=
  ⟨a.ok && b.ok, a.errors ++ b.errors, a.warnings ++ b.warnings, a.count + b.count⟩

/-- The source check `not x or not isinstance(x, str) or not x.strip()`
applied to a step description or tab-item text. -/
def invalidTextValue (tv : Json) : Bool :=
  !(pyTruthy tv) ||
    (match tv with
     | Json.str s => (stripList s.toList).isEmpty
     | _ => true)

/-- The closed priority enum of the validator. -/
def valid_priorities : List String := ["must do", "good to do", "optional"]

/-- The per-step body of the validation loop, at 1-based position pos. -/
def stepCheck (phase : String) (pos : Nat) (step : Json) : VAcc :=
  match step with
  | Json.obj fs =>
    let sd := objGet fs "step"
    let errs := if invalidTextValue sd then [VMsg.missingStep phase pos] else []
    let prio := objGet fs "priority"
    let w1 := if pyTruthy prio && !(jsonInStrList prio valid_priorities)
      then [VMsg.invalidPriority phase pos] else []
    let months := objGet fs "months"
    let timing := objGet fs "timing"
    let w2 := if !(pyTruthy months) && !(pyTruthy timing)
      then [VMsg.noTiming phase pos] else []
    ⟨errs.isEmpty, errs, w1 ++ w2, 1⟩
  | _ => ⟨false, [VMsg.stepNotDict phase pos], [], 0⟩

/-- The inner loop over the steps of one care phase. -/
def stepsCheck (phase : String) (pos : Nat) : List Json → VAcc
  | [] => ⟨true, [], [], 0⟩
  | st :: rest => vappend (stepCheck phase pos st) (stepsCheck phase (pos + 1) rest)

/-- The per-phase body of the validation loop. -/
def phaseCheck (phase : String) (v : Json) : VAcc :=
  match v with
  | Json.arr [] => ⟨true, [], [VMsg.phaseEmpty phase], 0⟩
  | Json.arr steps => stepsCheck phase 1 steps
  | _ => ⟨false, [VMsg.phaseNotList phase], [], 0⟩

/-- The outer loop over the care phases. -/
def phasesCheck : List (String × Json) → VAcc
  | [] => ⟨true, [], [], 0⟩
  | (ph, v) :: rest => vappend (phaseCheck ph v) (phasesCheck rest)

/-- validate_care_structure (app/database/supabase_client.py). -/
def validate_care_structure (care_details : Json) : VResult :=
  match care_details with
  | Json.obj [] => ⟨true, [], [VMsg.emptyDict]⟩
  | Json.obj fields =>
    let a := phasesCheck fields
    if a.count == 0 then ⟨false, a.errors ++ [VMsg.noValidInstructions], a.warnings⟩
    else ⟨a.ok, a.errors, a.warnings⟩
  | _ => ⟨false, [VMsg.notDict], []⟩


/- ----------------------------------------------------------------------
Instruction flattening (app/database/supabase_client.py):
build_care_rows_without_plant_id (the pre-flattened rows handed to the
atomic RPC) and the inline flattening of the multi-step fallback path.
---------------------------------------------------------------------- -/

/-- One instruction row as built for the RPC path (no plant id). -/
structure CareRow where
  care_phase : String
  months : Json
  step_description : String
  priority : Json
  order_within_season : Nat

/-- One instruction row as built by the fallback path: the same fields
plus the plant id. -/
structure CareRowId extends CareRow where
  plant_id : Json

/-- Python `(x or '')` followed by `.strip()` needing a string receiver:
falsy values turn into the empty string, truthy non-strings raise. -/
def pyOrBlankStr (j : Json) : Except String String :=
  if pyTruthy j then
    match j with
    | Json.str s => Except.ok s
    | _ => Except.error "AttributeError: strip"
  else Except.ok ""

/-- map_phase_from_tab (both copies in the source are identical): the
stripped tab label when non-empty, else the stripped tab key when
non-empty, else "General". -/
def map_phase_from_tab (style tab_key tab_label group : Json) :
    Except String String :=
  match pyOrBlankStr tab_label with
  | Except.error e => Except.error e
  | Except.ok lab =>
    let label_original := pyStrip lab
    if !label_original.toList.isEmpty then Except.ok label_original
    else
      match pyOrBlankStr tab_key with
      | Except.error e => Except.error e
      | Except.ok k =>
        let key_original := pyStrip k
        if !key_original.toList.isEmpty then Except.ok key_original
        else Except.ok "General"

/-- The item loop of the tabbed flattening for the RPC path; i is the
0-based enumerate counter. -/
def buildItems (care_phase : String) (i : Nat) : List Json → List CareRow
  | [] => []
  | item :: rest =>
    match item with
    | Json.obj ifs =>
      let tv := objGet ifs "text"
      if invalidTextValue tv then buildItems care_phase (i + 1) rest
      else
        { care_phase := care_phase, months := objGet ifs "when",
          step_description := pyStrip (jsonStr tv), priority := objGet ifs "priority",
          order_within_season := i + 1 } :: buildItems care_phase (i + 1) rest
    | _ => buildItems care_phase (i + 1) rest

/-- The tab loop of the tabbed flattening for the RPC path. -/
def buildTabs (style group : Json) : List Json → Except String (List CareRow)
  | [] => Except.ok []
  | tab :: rest =>
    match tab with
    | Json.obj tfs =>
      match map_phase_from_tab style (objGet tfs "key") (objGet tfs "label") group with
      | Except.error e => Except.error e
      | Except.ok care_phase =>
        match pyOr (objGet tfs "items") (Json.arr []) with
        | Json.arr il =>
          match buildTabs style group rest with
          | Except.error e => Except.error e
          | Except.ok restRows => Except.ok (buildItems care_phase 0 il ++ restRows)
        | _ => buildTabs style group rest
    | _ => buildTabs style group rest

/-- The step loop of the legacy flattening for the RPC path. -/
def buildSteps (care_phase : String) (i : Nat) : List Json → List CareRow
  | [] => []
  | st :: rest =>
    match st with
    | Json.obj sfs =>
      let sd := objGet sfs "step"
      if invalidTextValue sd then buildSteps care_phase (i + 1) rest
      else
        { care_phase := care_phase, months := objGet sfs "months",
          step_description := pyStrip (jsonStr sd), priority := objGet sfs "priority",
          order_within_season := i + 1 } :: buildSteps care_phase (i + 1) rest
    | _ => buildSteps care_phase (i + 1) rest

/-- The phase loop of the legacy flattening for the RPC path. -/
def buildLegacyEntries : List (String × Json) → List CareRow
  | [] => []
  | (phase, v) :: rest =>
    match v with
    | Json.arr steps => buildSteps phase 0 steps ++ buildLegacyEntries rest
    | _ => buildLegacyEntries rest

/-- The legacy branch: iterating `care_details.items()` raises unless the
care value is a dict. -/
def buildLegacyJ (care_details : Json) : Except String (List CareRow) :=
  match care_details with
  | Json.obj entries => Except.ok (buildLegacyEntries entries)
  | _ => Except.error "AttributeError: items"

/-- build_care_rows_without_plant_id (app/database/supabase_client.py). -/
def build_care_rows_without_plant_id (care_plan_json care_details final_plant_group : Json) :
    Except String (List CareRow) :=
  if pyTruthy care_plan_json then
    match care_plan_json with
    | Json.obj cpf =>
      let style := objGet cpf "style"
      let tabs := pyOr (objGet cpf "tabs") (Json.arr [])
      match tabs with
      | Json.arr tl => buildTabs style final_plant_group tl
      | _ => Except.ok []
    | _ => buildLegacyJ care_details
  else buildLegacyJ care_details

/-- The item loop of the fallback path flattening: rows carry the plant id
and invalid items bump the skipped counter. -/
def fallbackItems (plant_uuid : Json) (care_phase : String) (i : Nat) :
    List Json → List CareRowId × Nat
  | [] => ([], 0)
  | item :: rest =>
    let r := fallbackItems plant_uuid care_phase (i + 1) rest
    match item with
    | Json.obj ifs =>
      let tv := objGet ifs "text"
      if invalidTextValue tv then (r.1, r.2 + 1)
      else
        ({ care_phase := care_phase, months := objGet ifs "when",
           step_description := pyStrip (jsonStr tv), priority := objGet ifs "priority",
           order_within_season := i + 1, plant_id := plant_uuid } :: r.1, r.2)
    | _ => (r.1, r.2 + 1)

/-- The tab loop of the fallback path flattening. -/
def fallbackTabs (plant_uuid style group : Json) :
    List Json → Except String (List CareRowId × Nat)
  | [] => Except.ok ([], 0)
  | tab :: rest =>
    match tab with
    | Json.obj tfs =>
      match map_phase_from_tab style (objGet tfs "key") (objGet tfs "label") group with
      | Except.error e => Except.error e
      | Except.ok care_phase =>
        match pyOr (objGet tfs "items") (Json.arr []) with
        | Json.arr il =>
          match fallbackTabs plant_uuid style group rest with
          | Except.error e => Except.error e
          | Except.ok r2 =>
            Except.ok ((fallbackItems plant_uuid care_phase 0 il).1 ++ r2.1,
              (fallbackItems plant_uuid care_phase 0 il).2 + r2.2)
        | _ =>
          match fallbackTabs plant_uuid style group rest with
          | Except.error e => Except.error e
          | Except.ok r2 => Except.ok (r2.1, r2.2 + 1)
    | _ =>
      match fallbackTabs plant_uuid style group rest with
      | Except.error e => Except.error e
      | Except.ok r2 => Except.ok (r2.1, r2.2 + 1)

/-- The step loop of the fallback legacy flattening. -/
def fallbackSteps (plant_uuid : Json) (care_phase : String) (i : Nat) :
    List Json → List CareRowId × Nat
  | [] => ([], 0)
  | st :: rest =>
    let r := fallbackSteps plant_uuid care_phase (i + 1) rest
    match st with
    | Json.obj sfs =>
      let sd := objGet sfs "step"
      if invalidTextValue sd then (r.1, r.2 + 1)
      else
        ({ care_phase := care_phase, months := objGet sfs "months",
           step_description := pyStrip (jsonStr sd), priority := objGet sfs "priority",
           order_within_season := i + 1, plant_id := plant_uuid } :: r.1, r.2)
    | _ => (r.1, r.2 + 1)

/-- The phase loop of the fallback legacy flattening: a non-list phase
value bumps the skipped counter once. -/
def fallbackLegacyEntries (plant_uuid : Json) :
    List (String × Json) → List CareRowId × Nat
  | [] => ([], 0)
  | (phase, v) :: rest =>
    let r := fallbackLegacyEntries plant_uuid rest
    match v with
    | Json.arr steps =>
      let r1 := fallbackSteps plant_uuid phase 0 steps
      (r1.1 ++ r.1, r1.2 + r.2)
    | _ => (r.1, r.2 + 1)

/-- The legacy branch of the fallback flattening. -/
def fallbackLegacyJ (plant_uuid care_details : Json) :
    Except String (List CareRowId × Nat) :=
  match care_details with
  | Json.obj entries => Except.ok (fallbackLegacyEntries plant_uuid entries)
  | _ => Except.error "AttributeError: items"

/-- The inline flattening of the multi-step fallback path (lines 445-514
of app/database/supabase_client.py): rows to insert plus the number of
skipped instructions. -/
def fallback_flatten (plant_uuid care_plan_json care_details final_plant_group : Json) :
    Except String (List CareRowId × Nat) :=
  if pyTruthy care_plan_json then
    match care_plan_json with
    | Json.obj cpf =>
      let style := objGet cpf "style"
      let tabs := pyOr (objGet cpf "tabs") (Json.arr [])
      match tabs with
      | Json.arr tl => fallbackTabs plant_uuid style final_plant_group tl
      | _ => Except.ok ([], 0)
    | _ => fallbackLegacyJ plant_uuid care_details
  else fallbackLegacyJ plant_uuid care_details

/-- Specification-side description of one flattened legacy step (claim
C10): the row for the step at 0-based enumerate index i carries
order_within_season i + 1, and invalid steps produce no row. -/
def stepRowSpec (phase : String) (p : Nat × Json) : Option CareRow :=
  match p.2 with
  | Json.obj sfs =>
    let sd := objGet sfs "step"
    if invalidTextValue sd then none
    else some
      { care_phase := phase, months := objGet sfs "months",
        step_description := pyStrip (jsonStr sd), priority := objGet sfs "priority",
        order_within_season := p.1 + 1 }
  | _ => none

/-- Specification-side description of one flattened tab item (claim C10). -/
def itemRowSpec (phase : String) (p : Nat × Json) : Option CareRow :=
  match p.2 with
  | Json.obj ifs =>
    let tv := objGet ifs "text"
    if invalidTextValue tv then none
    else some
      { care_phase := phase, months := objGet ifs "when",
        step_description := pyStrip (jsonStr tv), priority := objGet ifs "priority",
        order_within_season := p.1 + 1 }
  | _ => none

/-- The phase label of a tab, totalised (crashing labels never occur in a
run on which the flattening succeeds). -/
def phaseLabelOfTab (style group : Json) (tfs : List (String × Json)) : String :=
  match map_phase_from_tab style (objGet tfs "key") (objGet tfs "label") group with
  | Except.ok s => s
  | Except.error _ => ""

/-- Specification-side flattening of a legacy care dict (claim C10):
enumerate each phase list and keep the rows of the valid steps. -/
def legacyRowsSpec (entries : List (String × Json)) : List CareRow :=
  entries.flatMap (fun e =>
    match e.2 with
    | Json.arr steps => steps.enum.filterMap (stepRowSpec e.1)
    | _ => [])

/-- Specification-side flattening of the tab list (claim C10). -/
def tabbedRowsSpec (style group : Json) (tl : List Json) : List CareRow :=
  tl.flatMap (fun tab =>
    match tab with
    | Json.obj tfs =>
      (match pyOr (objGet tfs "items") (Json.arr []) with
       | Json.arr il => il.enum.filterMap (itemRowSpec (phaseLabelOfTab style group tfs))
       | _ => [])
    | _ => [])

/-- Specification-side flattening of a legacy care value (claim C10). -/
def legacyRowsSpecJ (cd : Json) : List CareRow :=
  match cd with
  | Json.obj entries => legacyRowsSpec entries
  | _ => []

/-- Specification-side row list for a whole document (claim C10). -/
def buildRowsSpec (care_plan_json care_details final_plant_group : Json) : List CareRow :=
  if pyTruthy care_plan_json then
    match care_plan_json with
    | Json.obj cpf =>
      (match pyOr (objGet cpf "tabs") (Json.arr []) with
       | Json.arr tl => tabbedRowsSpec (objGet cpf "style") final_plant_group tl
       | _ => [])
    | _ => legacyRowsSpecJ care_details
  else legacyRowsSpecJ care_details


/- ----------------------------------------------------------------------
Classification Engine (app/services/plant_care/plant_classifier.py).
The LLM transport is modelled by an oracle resp mapping each attempt
number to the result of make_llm_request (none models an empty or failed
response) and json.loads by a parse oracle.
---------------------------------------------------------------------- -/

/-- The result dict of make_llm_request, restricted to the field the
classifier reads. -/
structure LLMResult where
  content : String

/-- A successfully classified outcome: the non-plant sentinel dict
(is_plant false) or a plant with its validated group. -/
inductive ClassOut where
  | notPlant
  | plant (group : String)

/-- The closed 11-value plant-group enum of the classifier. -/
def valid_plant_groups : List String :=
  ["Vegetables", "Herbs", "Fruit Trees", "Flowering Shrubs", "Perennial Flowers",
   "Annual Flowers", "Ornamental Trees", "Houseplants", "Succulents", "Bulbs",
   "Native Plants"]

/-- The truncation heuristic check `content.rstrip().endswith(chr(125))`:
whether the last character of the given string is a closing brace (the
built-in String.endsWith does not reduce in the kernel, so the test is
written over the character list). -/
def endsWithBrace (s : String) : Bool :=
  match s.toList.reverse with
  | c :: _ => c == Char.ofNat 125
  | [] => false

/-- One attempt of the classify_plant_group loop: ok none is a discarded
(retried) attempt, ok (some _) a terminal outcome, error an uncaught
Python exception (possible only when json.loads yields a non-dict that
passes both membership tests). -/
def attemptStep (parse : String → Option Json) (r : Option LLMResult) :
    Except String (Option ClassOut) :=
  match r with
  | none => Except.ok none
  | some res =>
    if !endsWithBrace (pyRstrip res.content) then Except.ok none
    else
      match parse res.content with
      | none => Except.ok none
      | some classification =>
        match pyContains classification "is_plant" with
        | Except.error e => Except.error e
        | Except.ok h1 =>
          if !h1 then Except.ok none
          else
            match pyContains classification "plant_group" with
            | Except.error e => Except.error e
            | Except.ok h2 =>
              if !h2 then Except.ok none
              else
                match pyDictGet classification "is_plant" with
                | Except.error e => Except.error e
                | Except.ok ip =>
                  match pyDictGet classification "plant_group" with
                  | Except.error e => Except.error e
                  | Except.ok pg =>
                    if !(pyTruthy ip) then
                      match pg with
                      | Json.null => Except.ok (some ClassOut.notPlant)
                      | _ => Except.ok none
                    else
                      if !(jsonInStrList pg valid_plant_groups) then Except.ok none
                      else
                        match pg with
                        | Json.str s => Except.ok (some (ClassOut.plant s))
                        | _ => Except.ok none

/-- The bounded retry loop of classify_plant_group: attempt number i
consumes resp i; fuel counts the remaining attempts. -/
def classifyLoop (parse : String → Option Json) (resp : Nat → Option LLMResult) :
    Nat → Nat → Except String (Option ClassOut)
  | _, 0 => Except.ok none
  | i, fuel + 1 =>
    match attemptStep parse (resp i) with
    | Except.error e => Except.error e
    | Except.ok (some out) => Except.ok (some out)
    | Except.ok none => classifyLoop parse resp (i + 1) fuel

/-- classify_plant_group (app/services/plant_care/plant_classifier.py):
up to 3 attempts, returning None after exhausting them. -/
def classify_plant_group (parse : String → Option Json)
    (resp : Nat → Option LLMResult) : Except String (Option ClassOut) :=
  classifyLoop parse resp 0 3


/- ----------------------------------------------------------------------
Persistence Orchestrator (app/database/supabase_client.py,
store_plant_and_care_instructions).  The Supabase client is modelled by
an environment of per-call results: raise models a raised APIError or
other exception, respNone an execute() returning None, resp a response
object carrying the given data.  A StoreTrace records the queries issued
and the payloads written, so that theorems can speak about what was
persisted.
---------------------------------------------------------------------- -/

/-- Result of one Supabase call. -/
inductive DbRes (α : Type) where
  | raise
  | respNone
  | resp (data : α)

/-- The environment of Supabase call results consumed by one store run. -/
structure DbEnv where
  rpc : DbRes Json
  find : DbRes (List Json)
  update : DbRes (List Json)
  insertPlant : DbRes (List Json)
  deleteCare : DbRes (List Json)
  insertCare : DbRes (List Json)

/-- plant_data_for_upsert: the plant payload shared by the RPC path and
the fallback update and insert calls. -/
structure PlantPayload where
  plant_name : Json
  zone : Option String
  description : Json
  plant_type : Json
  sun_requirements : Json
  seed_starting_month : Json
  planting_month : Json
  seed_starting_instructions : Json
  planting_instructions : Json
  zone_suitability : Json
  seasonality : Json
  plant_group : Json
  requirements : Json
  seed_starting : Json
  planting : Json
  care_plan : Json
  model_used : String
  raw_llm_response : Json

/-- The lookup key passed to the upsert_plant_and_care RPC. -/
structure RpcLookup where
  plant_name : Json
  zone : Option String
  plant_group : Json

/-- The parameters of the upsert_plant_and_care RPC call. -/
structure RpcParams where
  plant : PlantPayload
  care_instructions : List CareRow
  lookup : RpcLookup

/-- The find query of the fallback path: houseplants and succulents are
looked up by name and group with a null zone, everything else by name and
zone. -/
inductive PlantQuery where
  | houseQuery (plant_name : Json) (plant_group : Json)
  | outdoorQuery (plant_name : Json) (zone : String)

/-- What one store run asked of and wrote to the database. -/
structure StoreTrace where
  rpcCall : Option RpcParams
  findQuery : Option PlantQuery
  plantWrites : List PlantPayload
  careInsert : Option (List CareRowId)

/-- The empty trace. -/
def emptyTrace : StoreTrace := ⟨none, none, [], none⟩

/-- The membership test of a group in the list Houseplants, Succulents. -/
def isHouseOrSucculent (g : Json) : Bool :=
  jsonInStrList g ["Houseplants", "Succulents"]

/-- The zone persistence policy: houseplants and succulents persist a
null zone, all other groups persist the caller zone verbatim. -/
def zone_for_persistence (final_plant_group : Json) (zone : String) : Option String :=
  if isHouseOrSucculent final_plant_group then none else some zone

/-- The fallback find query by plant identity. -/
def plant_find_query (final_plant_group plant_name : Json) (zone : String) : PlantQuery :=
  if isHouseOrSucculent final_plant_group then
    PlantQuery.houseQuery plant_name final_plant_group
  else PlantQuery.outdoorQuery plant_name zone

/-- plant_data_for_upsert as built from the care_info dict. -/
def plant_data_for_upsert (fields : List (String × Json)) (model_used : String)
    (final_plant_group : Json) (zfp : Option String) : PlantPayload :=
  { plant_name := objGet fields "plantName"
  , zone := zfp
  , description := objGet fields "description"
  , plant_type := objGet fields "type"
  , sun_requirements := pyOr (objGet fields "sun")
      (match objGet fields "requirements" with
       | Json.obj rf => objGet rf "sun"
       | _ => Json.null)
  , seed_starting_month := objGet fields "seedStartingMonth"
  , planting_month := objGet fields "plantingMonth"
  , seed_starting_instructions := pyOr (objGet fields "seedStartingInstructions") (Json.arr [])
  , planting_instructions := pyOr (objGet fields "plantingInstructions") (Json.arr [])
  , zone_suitability := objGet fields "zoneSuitability"
  , seasonality := objGet fields "seasonality"
  , plant_group := final_plant_group
  , requirements := objGet fields "requirements"
  , seed_starting := objGet fields "seed_starting"
  , planting := objGet fields "planting"
  , care_plan := objGet fields "care_plan"
  , model_used := model_used
  , raw_llm_response := objGet fields "__raw_llm_response" }

/-- Success recognition for the RPC response data: truthy data that is a
dict with a truthy plant_id, or a non-empty list whose head is such a
dict. -/
def rpcSuccess (d : Json) : Bool :=
  pyTruthy d &&
    (match d with
     | Json.obj fs => pyTruthy (objGet fs "plant_id")
     | Json.arr (x :: _) =>
       (match x with
        | Json.obj fs => pyTruthy (objGet fs "plant_id")
        | _ => false)
     | _ => false)

/-- The find-or-insert-or-update plant stage of the fallback path:
Sum.inl is an early return False with the trace so far, Sum.inr carries
the obtained plant uuid. -/
def plantStage (payload : PlantPayload) (q : PlantQuery) (env : DbEnv)
    (tr : StoreTrace) : Sum StoreTrace (Json × StoreTrace) :=
  let tr1 := { tr with findQuery := some q }
  match env.find with
  | DbRes.raise => Sum.inl tr1
  | DbRes.respNone => Sum.inl tr1
  | DbRes.resp [] =>
    let tr2 := { tr1 with plantWrites := tr1.plantWrites ++ [payload] }
    match env.insertPlant with
    | DbRes.raise => Sum.inl tr2
    | DbRes.respNone => Sum.inl tr2
    | DbRes.resp [] => Sum.inl tr2
    | DbRes.resp (r0 :: _) =>
      match r0 with
      | Json.obj fs =>
        if pyTruthy (objGet fs "plant_id") then Sum.inr (objGet fs "plant_id", tr2)
        else Sum.inl tr2
      | _ => Sum.inl tr2
  | DbRes.resp (r0 :: _) =>
    match r0 with
    | Json.obj fs =>
      if pyTruthy (objGet fs "plant_id") then
        match env.update with
        | DbRes.raise => Sum.inl { tr1 with plantWrites := tr1.plantWrites ++ [payload] }
        | DbRes.respNone => Sum.inl { tr1 with plantWrites := tr1.plantWrites ++ [payload] }
        | DbRes.resp _ =>
          Sum.inr (objGet fs "plant_id", { tr1 with plantWrites := tr1.plantWrites ++ [payload] })
      else Sum.inl tr1
    | _ => Sum.inl tr1

/-- The instruction-insert stage at the end of the fallback path (lines
516-542 of the source): an empty row list is a no-op success unless
instructions were skipped; a row-count mismatch between the insert
request and the confirmed response data is a failure. -/
def insertCareStage (rows : List CareRowId) (skipped : Nat) (env : DbEnv)
    (tr : StoreTrace) : Bool × StoreTrace :=
  if rows.isEmpty then
    if skipped > 0 then (false, tr) else (true, tr)
  else
    let tr2 := { tr with careInsert := some rows }
    match env.insertCare with
    | DbRes.raise => (false, tr2)
    | DbRes.respNone => (false, tr2)
    | DbRes.resp data =>
      if data.isEmpty || data.length != rows.length then (false, tr2) else (true, tr2)

/-- The multi-step fallback path of store_plant_and_care_instructions. -/
def storeFallback (payload : PlantPayload) (q : PlantQuery)
    (care_plan_json care_details final_plant_group : Json) (env : DbEnv)
    (tr : StoreTrace) : Bool × StoreTrace :=
  match plantStage payload q env tr with
  | Sum.inl tr2 => (false, tr2)
  | Sum.inr (uuid, tr2) =>
    match env.deleteCare with
    | DbRes.raise => (false, tr2)
    | _ =>
      match fallback_flatten uuid care_plan_json care_details final_plant_group with
      | Except.error _ => (false, tr2)
      | Except.ok (rows, skipped) => insertCareStage rows skipped env tr2

/-- store_plant_and_care_instructions (app/database/supabase_client.py):
the returned success flag and the trace of database interactions; an
error models an exception escaping the function, which is possible only
from the RPC row flattening (it runs outside the try blocks). -/
def store_plant_and_care_instructions (care_info : Json) (original_user_zone : String)
    (model_used : String) (plant_group : Json) (env : DbEnv) :
    Except String (Bool × StoreTrace) :=
  match care_info with
  | Json.obj fields =>
    if !(pyTruthy (objGet fields "plantName"))
        || (original_user_zone.toList.isEmpty
            && !(isHouseOrSucculent (pyOr plant_group (objGet fields "plant_group")))) then
      Except.ok (false, emptyTrace)
    else if !(pyTruthy (objGet fields "care_plan"))
        && !((validate_care_structure (objGetD fields "care" (Json.obj []))).valid) then
      Except.ok (false, emptyTrace)
    else
      match build_care_rows_without_plant_id (objGet fields "care_plan")
          (objGetD fields "care" (Json.obj []))
          (pyOr plant_group (objGet fields "plant_group")) with
      | Except.error e => Except.error e
      | Except.ok care_rows_for_rpc =>
        let g := pyOr plant_group (objGet fields "plant_group")
        let zfp := zone_for_persistence g original_user_zone
        let payload := plant_data_for_upsert fields model_used g zfp
        let rpcParams : RpcParams :=
          { plant := payload, care_instructions := care_rows_for_rpc,
            lookup := { plant_name := objGet fields "plantName", zone := zfp,
                        plant_group := g } }
        let tr0 : StoreTrace := { emptyTrace with rpcCall := some rpcParams }
        let q := plant_find_query g (objGet fields "plantName") original_user_zone
        match env.rpc with
        | DbRes.resp d =>
          if rpcSuccess d then Except.ok (true, tr0)
          else Except.ok (storeFallback payload q (objGet fields "care_plan")
            (objGetD fields "care" (Json.obj [])) g env tr0)
        | _ => Except.ok (storeFallback payload q (objGet fields "care_plan")
            (objGetD fields "care" (Json.obj [])) g env tr0)
  | _ => Except.ok (false, emptyTrace)

/- ----------------------------------------------------------------------
Care pipeline (app/services/plant_care/plant_care.py,
app/services/plant_care/plant_classifier.py get_plant_group_and_prompt)
and the plant-care endpoint (app/main.py).  The seven category-specific
LLM calls are modelled by an oracle genEnv from the prompt-function name
to the parsed care document.
---------------------------------------------------------------------- -/

/-- The CATEGORY_TO_PROMPT table. -/
def CATEGORY_TO_PROMPT : List (String × String) :=
  [("Vegetables", "edible_annuals"), ("Herbs", "edible_annuals"),
   ("Fruit Trees", "fruit_trees"), ("Flowering Shrubs", "ornamental_perennials"),
   ("Perennial Flowers", "ornamental_perennials"),
   ("Ornamental Trees", "ornamental_perennials"),
   ("Annual Flowers", "annual_flowers"), ("Houseplants", "houseplants"),
   ("Succulents", "succulents"), ("Bulbs", "bulbs"),
   ("Native Plants", "ornamental_perennials")]

/-- get_plant_group_and_prompt: classify, bubble up the non-plant dict,
else map the group to its prompt function. -/
def get_plant_group_and_prompt (parse : String → Option Json)
    (resp : Nat → Option LLMResult) : Except String (Option Json) :=
  match classify_plant_group parse resp with
  | Except.error e => Except.error e
  | Except.ok none => Except.ok none
  | Except.ok (some ClassOut.notPlant) =>
    Except.ok (some (Json.obj [("is_plant", Json.bool false)]))
  | Except.ok (some (ClassOut.plant g)) =>
    match List.lookup g CATEGORY_TO_PROMPT with
    | none => Except.ok none
    | some f =>
      Except.ok (some (Json.obj [("is_plant", Json.bool true),
        ("plant_group", Json.str g), ("prompt_function", Json.str f)]))

/-- The prompt-function dispatch chain of generate_plant_care_instructions. -/
def dispatchCare (genEnv : String → Option Json) (pf : Json) : Option Json :=
  match pf with
  | Json.str f =>
    if f == "houseplants" then genEnv "houseplants"
    else if f == "edible_annuals" then genEnv "edible_annuals"
    else if f == "fruit_trees" then genEnv "fruit_trees"
    else if f == "ornamental_perennials" then genEnv "ornamental_perennials"
    else if f == "annual_flowers" then genEnv "annual_flowers"
    else if f == "bulbs" then genEnv "bulbs"
    else if f == "succulents" then genEnv "succulents"
    else none
  | _ => none

/-- generate_plant_care_instructions (app/services/plant_care/plant_care.py):
classify, subscript the classification dict, dispatch the care LLM call,
store, and return the document (regardless of the storage success flag). -/
def generate_plant_care_instructions (parse : String → Option Json)
    (resp : Nat → Option LLMResult) (genEnv : String → Option Json)
    (user_zone : String) (env : DbEnv) : Except String (Option Json) :=
  match get_plant_group_and_prompt parse resp with
  | Except.error e => Except.error e
  | Except.ok none => Except.ok none
  | Except.ok (some classification_result) =>
    if !(pyTruthy classification_result) then Except.ok none
    else
      match pyIndex classification_result "plant_group" with
      | Except.error e => Except.error e
      | Except.ok plant_group =>
        match pyIndex classification_result "prompt_function" with
        | Except.error e => Except.error e
        | Except.ok prompt_function =>
          match dispatchCare genEnv prompt_function with
          | none => Except.ok none
          | some care_info =>
            match store_plant_and_care_instructions care_info user_zone
                "google/gemini-2.5-flash-preview" plant_group env with
            | Except.error e => Except.error e
            | Except.ok _ => Except.ok (some care_info)

/-- The outcome of the plant-care-instructions endpoint as seen by the
client: a 200 body, a raised HTTPException status, or the framework 500
from an uncaught exception. -/
inductive HttpResult where
  | success (body : Json)
  | httpError (status : Nat)
  | internalError (msg : String)

/-- The plant-care-instructions endpoint of app/main.py. -/
def plant_care_endpoint (parse : String → Option Json)
    (resp : Nat → Option LLMResult) (genEnv : String → Option Json)
    (user_zone : String) (env : DbEnv) : HttpResult :=
  match generate_plant_care_instructions parse resp genEnv user_zone env with
  | Except.error e => HttpResult.internalError e
  | Except.ok none => HttpResult.httpError 503
  | Except.ok (some j) => HttpResult.success j


/-- The trace component of a plantStage result. -/
def stageTrace : Sum StoreTrace (Json × StoreTrace) → StoreTrace
  | Sum.inl t => t
  | Sum.inr p => p.2

-- ==== THEOREMS ====

theorem startsWithTicks_iff (l : List Char) :
    startsWithTicks l = true ↔ ∃ r, l = tickChar :: tickChar :: tickChar :: r := by
  match l with
  | [] => simp [startsWithTicks]
  | [a] => simp [startsWithTicks]
  | [a, b] => simp [startsWithTicks]
  | a :: b :: c :: t =>
    simp only [startsWithTicks, Bool.and_eq_true, beq_iff_eq]
    constructor
    · rintro ⟨⟨h1, h2⟩, h3⟩
      exact ⟨t, by rw [h1, h2, h3]⟩
    · rintro ⟨r, h⟩
      injection h with h1 h
      injection h with h2 h
      injection h with h3 h
      exact ⟨⟨h1, h2⟩, h3⟩

theorem containsTicks_iff (l : List Char) :
    containsTicks l = true ↔
      ∃ p r, l = p ++ tickChar :: tickChar :: tickChar :: r := by
  induction l with
  | nil =>
    simp [containsTicks]
  | cons c r ih =>
    rw [containsTicks, Bool.or_eq_true, startsWithTicks_iff, ih]
    constructor
    · rintro (⟨r0, h⟩ | ⟨p, r0, h⟩)
      · exact ⟨[], r0, by rw [h]; rfl⟩
      · exact ⟨c :: p, r0, by rw [h]; rfl⟩
    · rintro ⟨p, r0, h⟩
      match p, h with
      | [], h => exact Or.inl ⟨r0, h⟩
      | x :: p', h =>
        injection h with hx h
        exact Or.inr ⟨p', r0, h⟩

theorem containsTicks_append_right (l q : List Char) (h : containsTicks l = true) :
    containsTicks (l ++ q) = true := by
  rcases (containsTicks_iff l).mp h with ⟨p, r, hl⟩
  refine (containsTicks_iff (l ++ q)).mpr ⟨p, r ++ q, ?_⟩
  rw [hl]
  simp

theorem containsTicks_false_infix (l p m q : List Char)
    (hl : l = p ++ m ++ q) (h : containsTicks l = false) :
    containsTicks m = false := by
  cases hm : containsTicks m with
  | false => rfl
  | true =>
    exfalso
    rcases (containsTicks_iff m).mp hm with ⟨a, r, hdec⟩
    have : containsTicks l = true := by
      refine (containsTicks_iff l).mpr ⟨p ++ a, r ++ q, ?_⟩
      rw [hl, hdec]
      simp
    rw [this] at h
    exact Bool.true_eq_false.mp h

theorem closesAt_containsTicks (l : List Char) (h : closesAt l = true) :
    containsTicks l = true := by
  induction l with
  | nil => exact absurd h (by simp [closesAt])
  | cons c r ih =>
    rw [closesAt] at h
    rw [containsTicks, Bool.or_eq_true]
    by_cases hs : startsWithTicks (c :: r) = true
    · exact Or.inl hs
    · rw [if_neg hs] at h
      by_cases hw : pyIsSpace c = true
      · rw [if_pos hw] at h
        exact Or.inr (ih h)
      · rw [if_neg hw] at h
        exact absurd h (by simp)

theorem not_ticks_of_closesAt_false (l : List Char) (h : closesAt l = false) :
    startsWithTicks l = false := by
  cases l with
  | nil => rfl
  | cons c r =>
    cases hs : startsWithTicks (c :: r) with
    | false => rfl
    | true =>
      exfalso
      rw [closesAt, if_pos hs] at h
      exact Bool.true_eq_false.mp h

theorem findGroup_none_iff (l : List Char) :
    findGroup l = none ↔ containsTicks l = false := by
  induction l with
  | nil => simp [findGroup, containsTicks]
  | cons c r ih =>
    by_cases hc : closesAt (c :: r) = true
    · rw [findGroup, if_pos hc]
      have := closesAt_containsTicks _ hc
      simp [this]
    · have hc' : closesAt (c :: r) = false := by
        cases h : closesAt (c :: r)
        · rfl
        · exact absurd h hc
      rw [findGroup, if_neg hc, containsTicks,
        not_ticks_of_closesAt_false _ hc', Bool.false_or]
      rw [Option.map_eq_none']
      exact ih

theorem findGroup_prefix (l g : List Char) (h : findGroup l = some g) :
    ∃ rest, l = g ++ rest := by
  induction l generalizing g with
  | nil => exact absurd h (by simp [findGroup])
  | cons c r ih =>
    by_cases hc : closesAt (c :: r) = true
    · rw [findGroup, if_pos hc] at h
      injection h with h
      exact ⟨c :: r, by rw [← h]; rfl⟩
    · rw [findGroup, if_neg hc] at h
      rcases Option.map_eq_some'.mp h with ⟨g', hg', hcons⟩
      rcases ih g' hg' with ⟨rest, hrest⟩
      exact ⟨rest, by rw [← hcons, hrest]; rfl⟩

theorem findGroup_no_ticks (l g : List Char) (h : findGroup l = some g) :
    containsTicks g = false := by
  induction l generalizing g with
  | nil => exact absurd h (by simp [findGroup])
  | cons c r ih =>
    by_cases hc : closesAt (c :: r) = true
    · rw [findGroup, if_pos hc] at h
      injection h with h
      rw [← h]
      rfl
    · have hc' : closesAt (c :: r) = false := by
        cases hx : closesAt (c :: r)
        · rfl
        · exact absurd hx hc
      rw [findGroup, if_neg hc] at h
      rcases Option.map_eq_some'.mp h with ⟨g', hg', hcons⟩
      rcases findGroup_prefix r g' hg' with ⟨rest, hrest⟩
      rw [← hcons, containsTicks, (ih g' hg'), Bool.or_false]
      cases hs : startsWithTicks (c :: g') with
      | false => rfl
      | true =>
        exfalso
        rcases (startsWithTicks_iff (c :: g')).mp hs with ⟨r0, he⟩
        injection he with he1 he
        have hsr : startsWithTicks (c :: r) = true := by
          refine (startsWithTicks_iff (c :: r)).mpr ⟨r0 ++ rest, ?_⟩
          rw [he1, hrest, he]
          rfl
        have := closesAt (c :: r)
        rw [closesAt, if_pos hsr] at hc'
        exact Bool.true_eq_false.mp hc'

theorem not_tick_of_space (c : Char) (h : pyIsSpace c = true) :
    (c == tickChar) = false := by
  cases he : c == tickChar with
  | false => rfl
  | true =>
    exfalso
    have : c = tickChar := beq_iff_eq.mp he
    rw [this] at h
    exact absurd h (by decide)

theorem startsWithTicks_cons_false (c : Char) (r : List Char)
    (h : (c == tickChar) = false) : startsWithTicks (c :: r) = false := by
  match r with
  | [] => rfl
  | [b] => rfl
  | b :: d :: t =>
    rw [startsWithTicks, h]
    rfl

theorem containsTicks_cons_not_tick (c : Char) (r : List Char)
    (h : (c == tickChar) = false) : containsTicks (c :: r) = containsTicks r := by
  rw [containsTicks, startsWithTicks_cons_false c r h, Bool.false_or]

theorem containsTicks_dropWhile_space (l : List Char) :
    containsTicks (l.dropWhile pyIsSpace) = containsTicks l := by
  induction l with
  | nil => rfl
  | cons c r ih =>
    by_cases hw : pyIsSpace c = true
    · rw [List.dropWhile_cons_of_pos hw, ih,
        containsTicks_cons_not_tick c r (not_tick_of_space c hw)]
    · have hw' : pyIsSpace c = false := by
        cases h : pyIsSpace c
        · rfl
        · exact absurd h hw
      rw [List.dropWhile_cons_of_neg (by rw [hw']; exact Bool.false_ne_true)]

theorem not_tick_of_toLower (a x : Char) (hx : (Char.toLower tickChar == x) = false)
    (h : (a.toLower == x) = true) : (a == tickChar) = false := by
  cases he : a == tickChar with
  | false => rfl
  | true =>
    exfalso
    have : a = tickChar := beq_iff_eq.mp he
    rw [this] at h
    rw [h] at hx
    exact Bool.true_eq_false.mp hx

theorem containsTicks_dropJsonCI (l : List Char) :
    containsTicks (dropJsonCI l) = containsTicks l := by
  match l with
  | [] => rfl
  | [a] => rfl
  | [a, b] => rfl
  | [a, b, c] => rfl
  | a :: b :: c :: d :: rest =>
    rw [dropJsonCI]
    by_cases hj : (a.toLower == 'j' && b.toLower == 's' && c.toLower == 'o'
        && d.toLower == 'n') = true
    · have hj' : (a.toLower == 'j') = true ∧ (b.toLower == 's') = true
          ∧ (c.toLower == 'o') = true ∧ (d.toLower == 'n') = true := by
        simpa [Bool.and_eq_true, and_assoc] using hj
      rcases hj' with ⟨hja, hs, ho, hn⟩
      rw [if_pos hj,
        containsTicks_cons_not_tick a _ (not_tick_of_toLower a 'j' (by decide) hja),
        containsTicks_cons_not_tick b _ (not_tick_of_toLower b 's' (by decide) hs),
        containsTicks_cons_not_tick c _ (not_tick_of_toLower c 'o' (by decide) ho),
        containsTicks_cons_not_tick d _ (not_tick_of_toLower d 'n' (by decide) hn)]
    · rw [if_neg hj]

theorem tryOpen_none_iff (l : List Char) :
    tryOpen l = none ↔
      (startsWithTicks l = false ∨ containsTicks (l.drop 3) = false) := by
  match l with
  | [] => simp [tryOpen, startsWithTicks]
  | [a] => simp [tryOpen, startsWithTicks]
  | [a, b] => simp [tryOpen, startsWithTicks]
  | a :: b :: c :: rest =>
    by_cases ht : (a == tickChar && b == tickChar && c == tickChar) = true
    · rw [tryOpen, if_pos ht, findGroup_none_iff,
        containsTicks_dropWhile_space, containsTicks_dropJsonCI]
      have hsw : startsWithTicks (a :: b :: c :: rest) = true := ht
      rw [hsw]
      simp
    · have ht' : startsWithTicks (a :: b :: c :: rest) = false := by
        cases h : (a == tickChar && b == tickChar && c == tickChar)
        · exact h
        · exact absurd h ht
      rw [tryOpen, if_neg ht, ht']
      simp

theorem fenceSearch_none_iff (l : List Char) :
    fenceSearch l = none ↔ hasFence l = false := by
  induction l with
  | nil => simp [fenceSearch, hasFence]
  | cons c r ih =>
    cases hto : tryOpen (c :: r) with
    | some g =>
      have hne : ¬ (startsWithTicks (c :: r) = false
          ∨ containsTicks ((c :: r).drop 3) = false) := by
        intro hd
        have := (tryOpen_none_iff (c :: r)).mpr hd
        rw [hto] at this
        exact Option.noConfusion this
      push_neg at hne
      rcases hne with ⟨h1, h2⟩
      have h1' : startsWithTicks (c :: r) = true := by
        cases hx : startsWithTicks (c :: r)
        · exact absurd hx h1
        · rfl
      have h2' : containsTicks ((c :: r).drop 3) = true := by
        cases hx : containsTicks ((c :: r).drop 3)
        · exact absurd hx h2
        · rfl
      rw [fenceSearch, hto]
      rw [hasFence, h1', h2']
      simp
    | none =>
      rw [fenceSearch, hto, ih, hasFence]
      rcases (tryOpen_none_iff (c :: r)).mp hto with h | h
      · rw [h]
        simp
      · rw [h]
        simp

theorem fenceSearch_some_no_ticks (l g : List Char) (h : fenceSearch l = some g) :
    containsTicks g = false := by
  induction l with
  | nil => exact absurd h (by simp [fenceSearch])
  | cons c r ih =>
    cases hto : tryOpen (c :: r) with
    | some g0 =>
      rw [fenceSearch, hto] at h
      injection h with h
      rw [← h]
      match c :: r, hto with
      | a :: b :: d :: rest, hto =>
        rw [tryOpen] at hto
        by_cases ht : (a == tickChar && b == tickChar && d == tickChar) = true
        · rw [if_pos ht] at hto
          exact findGroup_no_ticks _ _ hto
        · rw [if_neg ht] at hto
          exact absurd hto (by simp)
    | none =>
      rw [fenceSearch, hto] at h
      exact ih h

theorem hasFence_iff (l : List Char) :
    hasFence l = true ↔
      ∃ p r, l = p ++ tickChar :: tickChar :: tickChar :: r
        ∧ containsTicks r = true := by
  induction l with
  | nil => simp [hasFence]
  | cons c r ih =>
    rw [hasFence, Bool.or_eq_true, Bool.and_eq_true, startsWithTicks_iff, ih]
    constructor
    · rintro (⟨⟨r0, he⟩, hct⟩ | ⟨p, r0, he, hct⟩)
      · refine ⟨[], r0, by rw [he]; rfl, ?_⟩
        rw [he] at hct
        exact hct
      · exact ⟨c :: p, r0, by rw [he]; rfl, hct⟩
    · rintro ⟨p, r0, he, hct⟩
      match p, he with
      | [], he =>
        refine Or.inl ⟨⟨r0, he⟩, ?_⟩
        rw [he]
        exact hct
      | x :: p', he =>
        injection he with hx he
        exact Or.inr ⟨p', r0, he, hct⟩

theorem hasFence_false_infix (l p m q : List Char)
    (hl : l = p ++ m ++ q) (h : hasFence l = false) : hasFence m = false := by
  cases hm : hasFence m with
  | false => rfl
  | true =>
    exfalso
    rcases (hasFence_iff m).mp hm with ⟨a, r, hdec, hct⟩
    have : hasFence l = true := by
      refine (hasFence_iff l).mpr ⟨p ++ a, r ++ q, ?_, containsTicks_append_right r q hct⟩
      rw [hl, hdec]
      simp
    rw [this] at h
    exact Bool.true_eq_false.mp h

theorem hasFence_false_of_no_ticks (l : List Char) (h : containsTicks l = false) :
    hasFence l = false := by
  cases hm : hasFence l with
  | false => rfl
  | true =>
    exfalso
    rcases (hasFence_iff l).mp hm with ⟨a, r, hdec, hct⟩
    have : containsTicks l = true := by
      refine (containsTicks_iff l).mpr ⟨a, r, hdec⟩
    rw [this] at h
    exact Bool.true_eq_false.mp h

theorem stripList_infix (l : List Char) : ∃ p q, l = p ++ stripList l ++ q := by
  refine ⟨l.takeWhile pyIsSpace, ((stripLeft l).reverse.takeWhile pyIsSpace).reverse, ?_⟩
  have h1 : l = l.takeWhile pyIsSpace ++ stripLeft l :=
    (List.takeWhile_append_dropWhile pyIsSpace l).symm
  have h2 : (stripLeft l).reverse =
      (stripLeft l).reverse.takeWhile pyIsSpace ++ (stripLeft l).reverse.dropWhile pyIsSpace :=
    (List.takeWhile_append_dropWhile pyIsSpace (stripLeft l).reverse).symm
  have h3 : stripLeft l = stripList l ++ ((stripLeft l).reverse.takeWhile pyIsSpace).reverse := by
    have := congrArg List.reverse h2
    rw [List.reverse_reverse, List.reverse_append] at this
    exact this
  rw [List.append_assoc, ← h3]
  exact h1

theorem dropWhile_idem (p : Char → Bool) (l : List Char) :
    (l.dropWhile p).dropWhile p = l.dropWhile p := by
  induction l with
  | nil => rfl
  | cons c r ih =>
    by_cases hc : p c = true
    · rw [List.dropWhile_cons_of_pos hc, ih]
    · have hc' : p c = false := by
        cases h : p c
        · rfl
        · exact absurd h hc
      rw [List.dropWhile_cons_of_neg (by rw [hc']; exact Bool.false_ne_true),
        List.dropWhile_cons_of_neg (by rw [hc']; exact Bool.false_ne_true)]

theorem dropWhile_append_last (p : Char → Bool) (ys : List Char) (c : Char)
    (h : p c = false) :
    (ys ++ [c]).dropWhile p = ys.dropWhile p ++ [c] := by
  induction ys with
  | nil =>
    rw [List.nil_append, List.dropWhile_cons_of_neg (by rw [h]; exact Bool.false_ne_true)]
    rfl
  | cons y ys ih =>
    by_cases hy : p y = true
    · rw [List.cons_append, List.dropWhile_cons_of_pos hy,
        List.dropWhile_cons_of_pos hy, ih]
    · have hy' : p y = false := by
        cases hx : p y
        · rfl
        · exact absurd hx hy
      rw [List.cons_append,
        List.dropWhile_cons_of_neg (by rw [hy']; exact Bool.false_ne_true),
        List.dropWhile_cons_of_neg (by rw [hy']; exact Bool.false_ne_true),
        List.cons_append]

theorem dropRightSpace_fixed_head (l : List Char)
    (h : l.dropWhile pyIsSpace = l) :
    (dropRightSpace l).dropWhile pyIsSpace = dropRightSpace l := by
  cases l with
  | nil => rfl
  | cons c r =>
    have hc : pyIsSpace c = false := by
      have h0 := List.dropWhile_eq_self_iff.mp h (by simp)
      simpa using h0
    have : dropRightSpace (c :: r) = c :: (r.reverse.dropWhile pyIsSpace).reverse := by
      rw [dropRightSpace, List.reverse_cons, dropWhile_append_last pyIsSpace r.reverse c hc,
        List.reverse_append]
      rfl
    rw [this,
      List.dropWhile_cons_of_neg (by rw [hc]; exact Bool.false_ne_true)]

theorem dropRightSpace_idem (l : List Char) :
    dropRightSpace (dropRightSpace l) = dropRightSpace l := by
  rw [dropRightSpace, dropRightSpace, List.reverse_reverse, dropWhile_idem]

theorem stripList_idem (l : List Char) : stripList (stripList l) = stripList l := by
  rw [stripList, stripList, stripLeft, stripLeft,
    dropRightSpace_fixed_head (l.dropWhile pyIsSpace) (dropWhile_idem pyIsSpace l),
    dropRightSpace_idem]

/-- C9. extract_json_from_response is idempotent: re-applying the extractor
to its own output changes nothing.  Moreover, when the input contains a
fenced code block the result is the trimmed captured group of the first
such block, and otherwise it is the trimmed input. -/
theorem extract_idempotent_c9 (x : String) (g : List Char) :
    extract_json_from_response (extract_json_from_response x) = extract_json_from_response x
    ∧ (fenceSearch x.toList = some g →
        extract_json_from_response x = String.mk (stripList g))
    ∧ (fenceSearch x.toList = none →
        extract_json_from_response x = pyStrip x) := by
  refine ⟨?_, ?_, ?_⟩
  · cases h : fenceSearch x.toList with
    | some g0 =>
      have hext : extract_json_from_response x = String.mk (stripList g0) := by
        rw [extract_json_from_response, h]
      have hct : containsTicks g0 = false := fenceSearch_some_no_ticks _ _ h
      rcases stripList_infix g0 with ⟨p, q, hinf⟩
      have hcts : containsTicks (stripList g0) = false :=
        containsTicks_false_infix g0 p (stripList g0) q hinf hct
      have hfs : fenceSearch (stripList g0) = none :=
        (fenceSearch_none_iff _).mpr (hasFence_false_of_no_ticks _ hcts)
      have htl : (String.mk (stripList g0)).toList = stripList g0 := rfl
      rw [hext, extract_json_from_response, htl, hfs, pyStrip, htl, stripList_idem]
    | none =>
      have hext : extract_json_from_response x = pyStrip x := by
        rw [extract_json_from_response, h]
      have hhf : hasFence x.toList = false := (fenceSearch_none_iff _).mp h
      rcases stripList_infix x.toList with ⟨p, q, hinf⟩
      have hhfs : hasFence (stripList x.toList) = false :=
        hasFence_false_infix x.toList p (stripList x.toList) q hinf hhf
      have hfs : fenceSearch (stripList x.toList) = none :=
        (fenceSearch_none_iff _).mpr hhfs
      have htl : (pyStrip x).toList = stripList x.toList := rfl
      rw [hext, extract_json_from_response, htl, hfs, pyStrip, htl, stripList_idem]
      rfl
  · intro h
    rw [extract_json_from_response, h]
  · intro h
    rw [extract_json_from_response, h]

/-- Witness for C9 at concrete inputs. -/
theorem extract_idempotent_c9_witness :
    extract_json_from_response (extract_json_from_response "hello") = extract_json_from_response "hello"
    ∧ extract_json_from_response "hello" = pyStrip "hello" :=
  ⟨(extract_idempotent_c9 "hello" []).1,
   (extract_idempotent_c9 "hello" []).2.2 (by rfl)⟩

theorem vappend_assoc (a b c : VAcc) :
    vappend (vappend a b) c = vappend a (vappend b c) := by
  simp [vappend, Bool.and_assoc, Nat.add_assoc]

theorem phasesCheck_append (l1 l2 : List (String × Json)) :
    phasesCheck (l1 ++ l2) = vappend (phasesCheck l1) (phasesCheck l2) := by
  induction l1 with
  | nil =>
    simp [phasesCheck, vappend]
  | cons x rest ih =>
    match x with
    | (ph, v) =>
      rw [List.cons_append, phasesCheck, phasesCheck, ih, vappend_assoc]

theorem stepsCheck_append (phase : String) (l1 l2 : List Json) (pos : Nat) :
    stepsCheck phase pos (l1 ++ l2) =
      vappend (stepsCheck phase pos l1) (stepsCheck phase (pos + l1.length) l2) := by
  induction l1 generalizing pos with
  | nil =>
    simp [stepsCheck, vappend]
  | cons st rest ih =>
    rw [List.cons_append, stepsCheck, stepsCheck, ih (pos + 1), vappend_assoc,
      List.length_cons]
    have : pos + 1 + rest.length = pos + (rest.length + 1) := by omega
    rw [this]

theorem stepCheck_ok_iff (phase : String) (pos : Nat) (st : Json) :
    (stepCheck phase pos st).ok = (stepCheck phase pos st).errors.isEmpty := by
  match st with
  | Json.obj fs =>
    rw [stepCheck]
  | Json.null => rfl
  | Json.bool b => rfl
  | Json.num n => rfl
  | Json.str s => rfl
  | Json.arr xs => rfl

theorem isEmpty_append_eq (a b : List VMsg) :
    (a ++ b).isEmpty = (a.isEmpty && b.isEmpty) := by
  cases a <;> simp

theorem vappend_ok_iff (a b : VAcc) (ha : a.ok = a.errors.isEmpty)
    (hb : b.ok = b.errors.isEmpty) :
    (vappend a b).ok = (vappend a b).errors.isEmpty := by
  rw [vappend]
  show (a.ok && b.ok) = (a.errors ++ b.errors).isEmpty
  rw [isEmpty_append_eq, ha, hb]

theorem stepsCheck_ok_iff (phase : String) (pos : Nat) (l : List Json) :
    (stepsCheck phase pos l).ok = (stepsCheck phase pos l).errors.isEmpty := by
  induction l generalizing pos with
  | nil => rfl
  | cons st rest ih =>
    rw [stepsCheck]
    exact vappend_ok_iff _ _ (stepCheck_ok_iff phase pos st) (ih (pos + 1))

theorem phaseCheck_ok_iff (phase : String) (v : Json) :
    (phaseCheck phase v).ok = (phaseCheck phase v).errors.isEmpty := by
  match v with
  | Json.arr [] => rfl
  | Json.arr (st :: rest) => exact stepsCheck_ok_iff phase 1 (st :: rest)
  | Json.null => rfl
  | Json.bool b => rfl
  | Json.num n => rfl
  | Json.str s => rfl
  | Json.obj fs => rfl

theorem phasesCheck_ok_iff (l : List (String × Json)) :
    (phasesCheck l).ok = (phasesCheck l).errors.isEmpty := by
  induction l with
  | nil => rfl
  | cons x rest ih =>
    match x with
    | (ph, v) =>
      rw [phasesCheck]
      exact vappend_ok_iff _ _ (phaseCheck_ok_iff ph v) ih

theorem goodStepCheck (phase : String) (pos : Nat) (gfs : List (String × Json))
    (s : String) (hs : objGet gfs "step" = Json.str s)
    (hns : stripList s.toList ≠ []) :
    (stepCheck phase pos (Json.obj gfs)).ok = true
      ∧ (stepCheck phase pos (Json.obj gfs)).errors = []
      ∧ (stepCheck phase pos (Json.obj gfs)).count = 1 := by
  have h2 : (stripList s.toList).isEmpty = false := by
    cases hx : (stripList s.toList).isEmpty with
    | false => rfl
    | true =>
      exfalso
      exact hns (List.isEmpty_iff.mp hx)
  have hse : s.toList.isEmpty = false := by
    cases hx : s.toList.isEmpty with
    | false => rfl
    | true =>
      exfalso
      have : s.toList = [] := List.isEmpty_iff.mp hx
      rw [stripList, stripLeft, this] at hns
      exact hns rfl
  have hinv : invalidTextValue (Json.str s) = false := by
    show (!(pyTruthy (Json.str s)) || (stripList s.toList).isEmpty) = false
    have h1 : pyTruthy (Json.str s) = true := by
      show (!s.toList.isEmpty) = true
      rw [hse]
      rfl
    rw [h1, h2]
    rfl
  rw [stepCheck, hs, hinv]
  exact ⟨rfl, rfl, rfl⟩

theorem phaseCheck_append_good (phase : String) (steps : List Json)
    (gfs : List (String × Json)) (s : String)
    (hs : objGet gfs "step" = Json.str s) (hns : stripList s.toList ≠ []) :
    (phaseCheck phase (Json.arr (steps ++ [Json.obj gfs]))).ok
        = (phaseCheck phase (Json.arr steps)).ok
      ∧ (phaseCheck phase (Json.arr (steps ++ [Json.obj gfs]))).errors
        = (phaseCheck phase (Json.arr steps)).errors
      ∧ (phaseCheck phase (Json.arr (steps ++ [Json.obj gfs]))).count
        = (phaseCheck phase (Json.arr steps)).count + 1 := by
  match steps with
  | [] =>
    rcases goodStepCheck phase 1 gfs s hs hns with ⟨g1, g2, g3⟩
    have h1 : phaseCheck phase (Json.arr ([] ++ [Json.obj gfs]))
        = vappend (stepCheck phase 1 (Json.obj gfs)) ⟨true, [], [], 0⟩ := rfl
    have h2 : phaseCheck phase (Json.arr ([] : List Json))
        = ⟨true, [VMsg.phaseEmpty phase].tail, [VMsg.phaseEmpty phase], 0⟩ := rfl
    rw [h1, vappend]
    refine ⟨?_, ?_, ?_⟩
    · show ((stepCheck phase 1 (Json.obj gfs)).ok && true) = _
      rw [g1]
      rfl
    · show (stepCheck phase 1 (Json.obj gfs)).errors ++ [] = _
      rw [g2]
      rfl
    · show (stepCheck phase 1 (Json.obj gfs)).count + 0 = _
      rw [g3]
      rfl
  | st0 :: rest =>
    rcases goodStepCheck phase (1 + (st0 :: rest).length) gfs s hs hns with ⟨g1, g2, g3⟩
    have h1 : phaseCheck phase (Json.arr ((st0 :: rest) ++ [Json.obj gfs]))
        = stepsCheck phase 1 ((st0 :: rest) ++ [Json.obj gfs]) := rfl
    have h2 : phaseCheck phase (Json.arr (st0 :: rest))
        = stepsCheck phase 1 (st0 :: rest) := rfl
    have h3 : stepsCheck phase (1 + (st0 :: rest).length) [Json.obj gfs]
        = vappend (stepCheck phase (1 + (st0 :: rest).length) (Json.obj gfs))
            ⟨true, [], [], 0⟩ := rfl
    rw [h1, h2, stepsCheck_append phase (st0 :: rest) [Json.obj gfs] 1, h3, vappend, vappend]
    refine ⟨?_, ?_, ?_⟩
    · show ((stepsCheck phase 1 (st0 :: rest)).ok
          && ((stepCheck phase (1 + (st0 :: rest).length) (Json.obj gfs)).ok && true)) = _
      rw [g1]
      simp
    · show (stepsCheck phase 1 (st0 :: rest)).errors
          ++ ((stepCheck phase (1 + (st0 :: rest).length) (Json.obj gfs)).errors ++ []) = _
      rw [g2]
      simp
    · show (stepsCheck phase 1 (st0 :: rest)).count
          + ((stepCheck phase (1 + (st0 :: rest).length) (Json.obj gfs)).count + 0) = _
      rw [g3]

theorem validate_obj_ne (fields : List (String × Json)) (h : fields ≠ []) :
    validate_care_structure (Json.obj fields) =
      (if ((phasesCheck fields).count == 0) = true
       then ⟨false, (phasesCheck fields).errors ++ [VMsg.noValidInstructions],
         (phasesCheck fields).warnings⟩
       else ⟨(phasesCheck fields).ok, (phasesCheck fields).errors,
         (phasesCheck fields).warnings⟩) := by
  match fields, h with
  | x :: rest, _ => rfl

/-- C7. On the legacy payload with a single spring step "Water deeply"
(no priority, no months), validate_care_structure returns valid with no
errors and exactly one warning: the missing-timing notice for that step
(in particular no priority warning). -/
theorem validator_scenario_c7 :
    validate_care_structure
        (Json.obj [("spring", Json.arr [Json.obj [("step", Json.str "Water deeply")]])])
      = ⟨true, [], [VMsg.noTiming "spring" 1]⟩ := by
  rfl

/-- C8 counterexample. The claim as stated is false: a step object whose
description is the non-empty string " " (one space) is rejected by the
validator (its stripped value is empty), so appending it to a phase of a
valid payload flips valid to false. -/
theorem validator_monotonicity_claim_false_c8 :
    (validate_care_structure (Json.obj [("spring", Json.arr
        [Json.obj [("step", Json.str "Water deeply"), ("months", Json.str "May")]])])).valid = true
    ∧ (" " : String) ≠ ""
    ∧ (validate_care_structure (Json.obj [("spring", Json.arr
        [Json.obj [("step", Json.str "Water deeply"), ("months", Json.str "May")],
         Json.obj [("step", Json.str " ")]])])).valid = false := by
  refine ⟨by rfl, by decide, by rfl⟩

/-- C8 (amended). Appending a step object whose step description is a
string with non-empty strip to any phase list of a payload the validator
accepts keeps it accepted; and removing the only step of the only phase
always yields valid false with a non-empty errors list. -/
theorem validator_monotonicity_amended_c8 (pre post : List (String × Json)) (p : String)
    (steps : List Json) (gfs : List (String × Json)) (s : String)
    (ph0 : String) (st0 : Json) :
    ((validate_care_structure (Json.obj (pre ++ (p, Json.arr steps) :: post))).valid = true →
      objGet gfs "step" = Json.str s → stripList s.toList ≠ [] →
      (validate_care_structure
        (Json.obj (pre ++ (p, Json.arr (steps ++ [Json.obj gfs])) :: post))).valid = true)
    ∧ ((validate_care_structure (Json.obj [(ph0, Json.arr [st0])])).valid = true →
       (validate_care_structure (Json.obj [(ph0, Json.arr ([] : List Json))])).valid = false
         ∧ (validate_care_structure (Json.obj [(ph0, Json.arr ([] : List Json))])).errors ≠ []) := by
  constructor
  · intro hvalid hs hns
    have hne1 : pre ++ (p, Json.arr steps) :: post ≠ [] := by simp
    have hne2 : pre ++ (p, Json.arr (steps ++ [Json.obj gfs])) :: post ≠ [] := by simp
    have hdec1 : phasesCheck (pre ++ (p, Json.arr steps) :: post)
        = vappend (phasesCheck pre)
            (vappend (phaseCheck p (Json.arr steps)) (phasesCheck post)) := by
      rw [phasesCheck_append]
      rfl
    have hdec2 : phasesCheck (pre ++ (p, Json.arr (steps ++ [Json.obj gfs])) :: post)
        = vappend (phasesCheck pre)
            (vappend (phaseCheck p (Json.arr (steps ++ [Json.obj gfs]))) (phasesCheck post)) := by
      rw [phasesCheck_append]
      rfl
    rcases phaseCheck_append_good p steps gfs s hs hns with ⟨e_ok, e_err, e_cnt⟩
    have hok2 : (phasesCheck (pre ++ (p, Json.arr (steps ++ [Json.obj gfs])) :: post)).ok
        = (phasesCheck (pre ++ (p, Json.arr steps) :: post)).ok := by
      rw [hdec1, hdec2, vappend, vappend, vappend, vappend, e_ok]
    have hcnt2 : (phasesCheck (pre ++ (p, Json.arr (steps ++ [Json.obj gfs])) :: post)).count
        = (phasesCheck (pre ++ (p, Json.arr steps) :: post)).count + 1 := by
      rw [hdec1, hdec2, vappend, vappend, vappend, vappend, e_cnt]
      dsimp only
      omega
    rw [validate_obj_ne _ hne1] at hvalid
    have hok1 : (phasesCheck (pre ++ (p, Json.arr steps) :: post)).ok = true := by
      by_cases hz : ((phasesCheck (pre ++ (p, Json.arr steps) :: post)).count == 0) = true
      · rw [if_pos hz] at hvalid
        exact absurd hvalid (by simp)
      · rw [if_neg hz] at hvalid
        exact hvalid
    have hz2 : ((phasesCheck (pre ++ (p, Json.arr (steps ++ [Json.obj gfs])) :: post)).count
        == 0) = false := by
      rw [hcnt2]
      simp
    rw [validate_obj_ne _ hne2, if_neg (by rw [hz2]; exact Bool.false_ne_true), hok2]
    exact hok1
  · intro _
    have hv : validate_care_structure (Json.obj [(ph0, Json.arr ([] : List Json))])
        = ⟨false, [VMsg.noValidInstructions], [VMsg.phaseEmpty ph0]⟩ := rfl
    rw [hv]
    exact ⟨rfl, by simp⟩

/-- Witness for C8 (amended) at concrete inputs. -/
theorem validator_monotonicity_amended_c8_witness :
    (validate_care_structure (Json.obj [("spring", Json.arr
        [Json.obj [("step", Json.str "Water deeply")],
         Json.obj [("step", Json.str "Prune")]])])).valid = true
    ∧ (validate_care_structure (Json.obj [("spring", Json.arr ([] : List Json))])).valid = false := by
  have h := validator_monotonicity_amended_c8 [] [] "spring"
    [Json.obj [("step", Json.str "Water deeply")]] [("step", Json.str "Prune")] "Prune"
    "spring" (Json.obj [("step", Json.str "Water deeply")])
  exact ⟨h.1 (by rfl) (by rfl) (by decide), (h.2 (by rfl)).1⟩

theorem fallbackItems_map_eq (pid : Json) (phase : String) (il : List Json) (i : Nat) :
    (fallbackItems pid phase i il).1.map CareRowId.toCareRow = buildItems phase i il := by
  induction il generalizing i with
  | nil => rfl
  | cons item rest ih =>
    match item with
    | Json.obj ifs =>
      by_cases hv : invalidTextValue (objGet ifs "text") = true
      · rw [fallbackItems, buildItems]
        rw [if_pos hv, if_pos hv]
        exact ih (i + 1)
      · have hv' : invalidTextValue (objGet ifs "text") = false := by
          cases hx : invalidTextValue (objGet ifs "text")
          · rfl
          · exact absurd hx hv
        rw [fallbackItems, buildItems]
        rw [if_neg hv, if_neg hv, List.map_cons, ih (i + 1)]
    | Json.null => exact ih (i + 1)
    | Json.bool b => exact ih (i + 1)
    | Json.num n => exact ih (i + 1)
    | Json.str s => exact ih (i + 1)
    | Json.arr xs => exact ih (i + 1)

theorem fallbackItems_plant_id (pid : Json) (phase : String) (il : List Json) (i : Nat) :
    ∀ r ∈ (fallbackItems pid phase i il).1, r.plant_id = pid := by
  induction il generalizing i with
  | nil => intro r hr; exact absurd hr (by simp [fallbackItems])
  | cons item rest ih =>
    intro r hr
    match item with
    | Json.obj ifs =>
      by_cases hv : invalidTextValue (objGet ifs "text") = true
      · rw [fallbackItems] at hr
        rw [if_pos hv] at hr
        exact ih (i + 1) r hr
      · rw [fallbackItems] at hr
        rw [if_neg hv] at hr
        rcases List.mem_cons.mp hr with h | h
        · rw [h]
        · exact ih (i + 1) r h
    | Json.null => exact ih (i + 1) r hr
    | Json.bool b => exact ih (i + 1) r hr
    | Json.num n => exact ih (i + 1) r hr
    | Json.str s => exact ih (i + 1) r hr
    | Json.arr xs => exact ih (i + 1) r hr

theorem fallbackSteps_map_eq (pid : Json) (phase : String) (il : List Json) (i : Nat) :
    (fallbackSteps pid phase i il).1.map CareRowId.toCareRow = buildSteps phase i il := by
  induction il generalizing i with
  | nil => rfl
  | cons st rest ih =>
    match st with
    | Json.obj sfs =>
      by_cases hv : invalidTextValue (objGet sfs "step") = true
      · rw [fallbackSteps, buildSteps]
        rw [if_pos hv, if_pos hv]
        exact ih (i + 1)
      · have hv' : invalidTextValue (objGet sfs "step") = false := by
          cases hx : invalidTextValue (objGet sfs "step")
          · rfl
          · exact absurd hx hv
        rw [fallbackSteps, buildSteps]
        rw [if_neg hv, if_neg hv, List.map_cons, ih (i + 1)]
    | Json.null => exact ih (i + 1)
    | Json.bool b => exact ih (i + 1)
    | Json.num n => exact ih (i + 1)
    | Json.str s => exact ih (i + 1)
    | Json.arr xs => exact ih (i + 1)

theorem fallbackSteps_plant_id (pid : Json) (phase : String) (il : List Json) (i : Nat) :
    ∀ r ∈ (fallbackSteps pid phase i il).1, r.plant_id = pid := by
  induction il generalizing i with
  | nil => intro r hr; exact absurd hr (by simp [fallbackSteps])
  | cons st rest ih =>
    intro r hr
    match st with
    | Json.obj sfs =>
      by_cases hv : invalidTextValue (objGet sfs "step") = true
      · rw [fallbackSteps] at hr
        rw [if_pos hv] at hr
        exact ih (i + 1) r hr
      · rw [fallbackSteps] at hr
        rw [if_neg hv] at hr
        rcases List.mem_cons.mp hr with h | h
        · rw [h]
        · exact ih (i + 1) r h
    | Json.null => exact ih (i + 1) r hr
    | Json.bool b => exact ih (i + 1) r hr
    | Json.num n => exact ih (i + 1) r hr
    | Json.str s => exact ih (i + 1) r hr
    | Json.arr xs => exact ih (i + 1) r hr

theorem except_map_error (f : List CareRowId × Nat → List CareRow) (e : String) :
    Except.map f (Except.error e : Except String (List CareRowId × Nat)) = Except.error e := rfl

theorem except_map_ok (f : List CareRowId × Nat → List CareRow) (a : List CareRowId × Nat) :
    Except.map f (Except.ok a : Except String (List CareRowId × Nat)) = Except.ok (f a) := rfl

theorem fallbackTabs_map_eq (pid style group : Json) (tl : List Json) :
    Except.map (fun p => p.1.map CareRowId.toCareRow) (fallbackTabs pid style group tl)
      = buildTabs style group tl := by
  induction tl with
  | nil => rfl
  | cons tab rest ih =>
    have hpass : Except.map (fun p => p.1.map CareRowId.toCareRow)
        (match fallbackTabs pid style group rest with
         | Except.error e => Except.error e
         | Except.ok r2 => Except.ok (r2.1, r2.2 + 1))
        = buildTabs style group rest := by
      cases hrest : fallbackTabs pid style group rest with
      | error e =>
        rw [hrest, except_map_error] at ih
        exact ih
      | ok r2 =>
        rw [hrest, except_map_ok] at ih
        exact ih
    cases tab with
    | obj tfs =>
      simp only [fallbackTabs, buildTabs]
      cases hmp : map_phase_from_tab style (objGet tfs "key") (objGet tfs "label") group with
      | error e => rfl
      | ok phase =>
        cases hit : pyOr (objGet tfs "items") (Json.arr []) with
        | arr il =>
          cases hrest : fallbackTabs pid style group rest with
          | error e =>
            rw [hrest, except_map_error] at ih
            rw [← ih]
            rfl
          | ok r2 =>
            rw [hrest, except_map_ok] at ih
            rw [← ih]
            show Except.ok (((fallbackItems pid phase 0 il).1 ++ r2.1).map CareRowId.toCareRow)
              = Except.ok (buildItems phase 0 il ++ r2.1.map CareRowId.toCareRow)
            rw [List.map_append, fallbackItems_map_eq]
        | null => exact hpass
        | bool b => exact hpass
        | num n => exact hpass
        | str s => exact hpass
        | obj fs => exact hpass
    | null => exact hpass
    | bool b => exact hpass
    | num n => exact hpass
    | str s => exact hpass
    | arr xs => exact hpass

theorem fallbackTabs_plant_id (pid style group : Json) (tl : List Json)
    (r : List CareRowId × Nat) (h : fallbackTabs pid style group tl = Except.ok r) :
    ∀ row ∈ r.1, row.plant_id = pid := by
  induction tl generalizing r with
  | nil =>
    injection h with h
    intro row hrow
    rw [← h] at hrow
    exact absurd hrow (by simp)
  | cons tab rest ih =>
    cases tab with
    | obj tfs =>
      simp only [fallbackTabs] at h
      cases hmp : map_phase_from_tab style (objGet tfs "key") (objGet tfs "label") group with
      | error e =>
        rw [hmp] at h
        exact Except.noConfusion
          (show (Except.error e : Except String (List CareRowId × Nat)) = Except.ok r from h)
      | ok phase =>
        rw [hmp] at h
        cases hit : pyOr (objGet tfs "items") (Json.arr []) with
        | arr il =>
          rw [hit] at h
          cases hrest : fallbackTabs pid style group rest with
          | error e =>
            rw [hrest] at h
            exact Except.noConfusion
              (show (Except.error e : Except String (List CareRowId × Nat)) = Except.ok r from h)
          | ok r2 =>
            rw [hrest] at h
            have h2 : Except.ok ((fallbackItems pid phase 0 il).1 ++ r2.1,
                (fallbackItems pid phase 0 il).2 + r2.2) = Except.ok r := h
            injection h2 with h2
            intro row hrow
            rw [← h2] at hrow
            have hrow2 : row ∈ (fallbackItems pid phase 0 il).1 ++ r2.1 := hrow
            rcases List.mem_append.mp hrow2 with hm | hm
            · exact fallbackItems_plant_id pid phase il 0 row hm
            · exact ih r2 hrest row hm
        | null =>
          rw [hit] at h
          cases hrest : fallbackTabs pid style group rest with
          | error e =>
            rw [hrest] at h
            exact Except.noConfusion
              (show (Except.error e : Except String (List CareRowId × Nat)) = Except.ok r from h)
          | ok r2 =>
            rw [hrest] at h
            have h2 : Except.ok (r2.1, r2.2 + 1) = Except.ok r := h
            injection h2 with h2
            intro row hrow
            rw [← h2] at hrow
            exact ih r2 hrest row hrow
        | bool b =>
          rw [hit] at h
          cases hrest : fallbackTabs pid style group rest with
          | error e =>
            rw [hrest] at h
            exact Except.noConfusion
              (show (Except.error e : Except String (List CareRowId × Nat)) = Except.ok r from h)
          | ok r2 =>
            rw [hrest] at h
            have h2 : Except.ok (r2.1, r2.2 + 1) = Except.ok r := h
            injection h2 with h2
            intro row hrow
            rw [← h2] at hrow
            exact ih r2 hrest row hrow
        | num n =>
          rw [hit] at h
          cases hrest : fallbackTabs pid style group rest with
          | error e =>
            rw [hrest] at h
            exact Except.noConfusion
              (show (Except.error e : Except String (List CareRowId × Nat)) = Except.ok r from h)
          | ok r2 =>
            rw [hrest] at h
            have h2 : Except.ok (r2.1, r2.2 + 1) = Except.ok r := h
            injection h2 with h2
            intro row hrow
            rw [← h2] at hrow
            exact ih r2 hrest row hrow
        | str s =>
          rw [hit] at h
          cases hrest : fallbackTabs pid style group rest with
          | error e =>
            rw [hrest] at h
            exact Except.noConfusion
              (show (Except.error e : Except String (List CareRowId × Nat)) = Except.ok r from h)
          | ok r2 =>
            rw [hrest] at h
            have h2 : Except.ok (r2.1, r2.2 + 1) = Except.ok r := h
            injection h2 with h2
            intro row hrow
            rw [← h2] at hrow
            exact ih r2 hrest row hrow
        | obj fs2 =>
          rw [hit] at h
          cases hrest : fallbackTabs pid style group rest with
          | error e =>
            rw [hrest] at h
            exact Except.noConfusion
              (show (Except.error e : Except String (List CareRowId × Nat)) = Except.ok r from h)
          | ok r2 =>
            rw [hrest] at h
            have h2 : Except.ok (r2.1, r2.2 + 1) = Except.ok r := h
            injection h2 with h2
            intro row hrow
            rw [← h2] at hrow
            exact ih r2 hrest row hrow
    | null =>
      cases hrest : fallbackTabs pid style group rest with
      | error e =>
        have h2 := h
        simp only [fallbackTabs] at h2
        rw [hrest] at h2
        exact Except.noConfusion
          (show (Except.error e : Except String (List CareRowId × Nat)) = Except.ok r from h2)
      | ok r2 =>
        have h2 := h
        simp only [fallbackTabs] at h2
        rw [hrest] at h2
        have h3 : Except.ok (r2.1, r2.2 + 1) = Except.ok r := h2
        injection h3 with h3
        intro row hrow
        rw [← h3] at hrow
        exact ih r2 hrest row hrow
    | bool b =>
      cases hrest : fallbackTabs pid style group rest with
      | error e =>
        have h2 := h
        simp only [fallbackTabs] at h2
        rw [hrest] at h2
        exact Except.noConfusion
          (show (Except.error e : Except String (List CareRowId × Nat)) = Except.ok r from h2)
      | ok r2 =>
        have h2 := h
        simp only [fallbackTabs] at h2
        rw [hrest] at h2
        have h3 : Except.ok (r2.1, r2.2 + 1) = Except.ok r := h2
        injection h3 with h3
        intro row hrow
        rw [← h3] at hrow
        exact ih r2 hrest row hrow
    | num n =>
      cases hrest : fallbackTabs pid style group rest with
      | error e =>
        have h2 := h
        simp only [fallbackTabs] at h2
        rw [hrest] at h2
        exact Except.noConfusion
          (show (Except.error e : Except String (List CareRowId × Nat)) = Except.ok r from h2)
      | ok r2 =>
        have h2 := h
        simp only [fallbackTabs] at h2
        rw [hrest] at h2
        have h3 : Except.ok (r2.1, r2.2 + 1) = Except.ok r := h2
        injection h3 with h3
        intro row hrow
        rw [← h3] at hrow
        exact ih r2 hrest row hrow
    | str s =>
      cases hrest : fallbackTabs pid style group rest with
      | error e =>
        have h2 := h
        simp only [fallbackTabs] at h2
        rw [hrest] at h2
        exact Except.noConfusion
          (show (Except.error e : Except String (List CareRowId × Nat)) = Except.ok r from h2)
      | ok r2 =>
        have h2 := h
        simp only [fallbackTabs] at h2
        rw [hrest] at h2
        have h3 : Except.ok (r2.1, r2.2 + 1) = Except.ok r := h2
        injection h3 with h3
        intro row hrow
        rw [← h3] at hrow
        exact ih r2 hrest row hrow
    | arr xs =>
      cases hrest : fallbackTabs pid style group rest with
      | error e =>
        have h2 := h
        simp only [fallbackTabs] at h2
        rw [hrest] at h2
        exact Except.noConfusion
          (show (Except.error e : Except String (List CareRowId × Nat)) = Except.ok r from h2)
      | ok r2 =>
        have h2 := h
        simp only [fallbackTabs] at h2
        rw [hrest] at h2
        have h3 : Except.ok (r2.1, r2.2 + 1) = Except.ok r := h2
        injection h3 with h3
        intro row hrow
        rw [← h3] at hrow
        exact ih r2 hrest row hrow

theorem fallbackLegacyEntries_map_eq (pid : Json) (entries : List (String × Json)) :
    (fallbackLegacyEntries pid entries).1.map CareRowId.toCareRow
      = buildLegacyEntries entries := by
  induction entries with
  | nil => rfl
  | cons e rest ih =>
    match e with
    | (phase, v) =>
      cases v with
      | arr steps =>
        show ((fallbackSteps pid phase 0 steps).1 ++ (fallbackLegacyEntries pid rest).1).map
            CareRowId.toCareRow = buildSteps phase 0 steps ++ buildLegacyEntries rest
        rw [List.map_append, fallbackSteps_map_eq, ih]
      | null => exact ih
      | bool b => exact ih
      | num n => exact ih
      | str s => exact ih
      | obj fs => exact ih

theorem fallbackLegacyEntries_plant_id (pid : Json) (entries : List (String × Json)) :
    ∀ row ∈ (fallbackLegacyEntries pid entries).1, row.plant_id = pid := by
  induction entries with
  | nil =>
    intro row hrow
    exact absurd hrow (by simp [fallbackLegacyEntries])
  | cons e rest ih =>
    intro row hrow
    match e with
    | (phase, v) =>
      cases v with
      | arr steps =>
        have hrow2 : row ∈ (fallbackSteps pid phase 0 steps).1
            ++ (fallbackLegacyEntries pid rest).1 := hrow
        rcases List.mem_append.mp hrow2 with hm | hm
        · exact fallbackSteps_plant_id pid phase steps 0 row hm
        · exact ih row hm
      | null => exact ih row hrow
      | bool b => exact ih row hrow
      | num n => exact ih row hrow
      | str s => exact ih row hrow
      | obj fs => exact ih row hrow

theorem fallbackLegacyJ_map_eq (pid cd : Json) :
    Except.map (fun p => p.1.map CareRowId.toCareRow) (fallbackLegacyJ pid cd)
      = buildLegacyJ cd := by
  cases cd with
  | obj entries =>
    show Except.ok ((fallbackLegacyEntries pid entries).1.map CareRowId.toCareRow)
      = Except.ok (buildLegacyEntries entries)
    rw [fallbackLegacyEntries_map_eq]
  | null => rfl
  | bool b => rfl
  | num n => rfl
  | str s => rfl
  | arr xs => rfl

theorem fallbackFlatten_map_eq (pid cp cd group : Json) :
    Except.map (fun p => p.1.map CareRowId.toCareRow) (fallback_flatten pid cp cd group)
      = build_care_rows_without_plant_id cp cd group := by
  by_cases ht : pyTruthy cp = true
  · cases cp with
    | obj cpf =>
      unfold fallback_flatten build_care_rows_without_plant_id
      rw [if_pos ht, if_pos ht]
      simp only []
      cases hit : pyOr (objGet cpf "tabs") (Json.arr []) with
      | arr tl => exact fallbackTabs_map_eq pid (objGet cpf "style") group tl
      | null => rfl
      | bool b => rfl
      | num n => rfl
      | str s => rfl
      | obj fs => rfl
    | null => exact absurd ht (by simp [pyTruthy])
    | bool b =>
      unfold fallback_flatten build_care_rows_without_plant_id
      rw [if_pos ht, if_pos ht]
      exact fallbackLegacyJ_map_eq pid cd
    | num n =>
      unfold fallback_flatten build_care_rows_without_plant_id
      rw [if_pos ht, if_pos ht]
      exact fallbackLegacyJ_map_eq pid cd
    | str s =>
      unfold fallback_flatten build_care_rows_without_plant_id
      rw [if_pos ht, if_pos ht]
      exact fallbackLegacyJ_map_eq pid cd
    | arr xs =>
      unfold fallback_flatten build_care_rows_without_plant_id
      rw [if_pos ht, if_pos ht]
      exact fallbackLegacyJ_map_eq pid cd
  · unfold fallback_flatten build_care_rows_without_plant_id
    rw [if_neg ht, if_neg ht]
    exact fallbackLegacyJ_map_eq pid cd

theorem fallbackLegacyJ_plant_id (pid cd : Json) (rows : List CareRowId) (k : Nat)
    (h : fallbackLegacyJ pid cd = Except.ok (rows, k)) :
    ∀ row ∈ rows, row.plant_id = pid := by
  cases cd with
  | obj entries =>
    have h2 : Except.ok (fallbackLegacyEntries pid entries) = Except.ok (rows, k) := h
    injection h2 with h2
    intro row hrow
    have h3 : (fallbackLegacyEntries pid entries).1 = rows := congrArg Prod.fst h2
    rw [← h3] at hrow
    exact fallbackLegacyEntries_plant_id pid entries row hrow
  | null => exact Except.noConfusion h
  | bool b => exact Except.noConfusion h
  | num n => exact Except.noConfusion h
  | str s => exact Except.noConfusion h
  | arr xs => exact Except.noConfusion h

theorem fallbackFlatten_plant_id (pid cp cd group : Json) (rows : List CareRowId) (k : Nat)
    (h : fallback_flatten pid cp cd group = Except.ok (rows, k)) :
    ∀ row ∈ rows, row.plant_id = pid := by
  by_cases ht : pyTruthy cp = true
  · cases cp with
    | obj cpf =>
      unfold fallback_flatten at h
      rw [if_pos ht] at h
      simp only [] at h
      cases hit : pyOr (objGet cpf "tabs") (Json.arr []) with
      | arr tl =>
        rw [hit] at h
        exact fallbackTabs_plant_id pid (objGet cpf "style") group tl (rows, k) h
      | null =>
        rw [hit] at h
        have h2 : Except.ok (([] : List CareRowId), 0) = Except.ok (rows, k) := h
        injection h2 with h2
        intro row hrow
        have h3 : ([] : List CareRowId) = rows := congrArg Prod.fst h2
        rw [← h3] at hrow
        exact absurd hrow (by simp)
      | bool b =>
        rw [hit] at h
        have h2 : Except.ok (([] : List CareRowId), 0) = Except.ok (rows, k) := h
        injection h2 with h2
        intro row hrow
        have h3 : ([] : List CareRowId) = rows := congrArg Prod.fst h2
        rw [← h3] at hrow
        exact absurd hrow (by simp)
      | num n =>
        rw [hit] at h
        have h2 : Except.ok (([] : List CareRowId), 0) = Except.ok (rows, k) := h
        injection h2 with h2
        intro row hrow
        have h3 : ([] : List CareRowId) = rows := congrArg Prod.fst h2
        rw [← h3] at hrow
        exact absurd hrow (by simp)
      | str s =>
        rw [hit] at h
        have h2 : Except.ok (([] : List CareRowId), 0) = Except.ok (rows, k) := h
        injection h2 with h2
        intro row hrow
        have h3 : ([] : List CareRowId) = rows := congrArg Prod.fst h2
        rw [← h3] at hrow
        exact absurd hrow (by simp)
      | obj fs =>
        rw [hit] at h
        have h2 : Except.ok (([] : List CareRowId), 0) = Except.ok (rows, k) := h
        injection h2 with h2
        intro row hrow
        have h3 : ([] : List CareRowId) = rows := congrArg Prod.fst h2
        rw [← h3] at hrow
        exact absurd hrow (by simp)
    | null => exact absurd ht (by simp [pyTruthy])
    | bool b =>
      unfold fallback_flatten at h
      rw [if_pos ht] at h
      exact fallbackLegacyJ_plant_id pid cd rows k h
    | num n =>
      unfold fallback_flatten at h
      rw [if_pos ht] at h
      exact fallbackLegacyJ_plant_id pid cd rows k h
    | str s =>
      unfold fallback_flatten at h
      rw [if_pos ht] at h
      exact fallbackLegacyJ_plant_id pid cd rows k h
    | arr xs =>
      unfold fallback_flatten at h
      rw [if_pos ht] at h
      exact fallbackLegacyJ_plant_id pid cd rows k h
  · unfold fallback_flatten at h
    rw [if_neg ht] at h
    exact fallbackLegacyJ_plant_id pid cd rows k h

/-- C5. The flattening built for the atomic RPC path and the inline
flattening of the multi-step fallback path agree on every document: the
fallback rows, with their plant_id projected away, are exactly the RPC
rows (same care_phase, months, step_description, priority and
order_within_season, in the same order, and the same crash behaviour),
and every fallback row carries the plant id it was given. -/
theorem flatten_paths_equivalent_c5 (pid cp cd group : Json)
    (rows : List CareRowId) (k : Nat) :
    Except.map (fun p => p.1.map CareRowId.toCareRow) (fallback_flatten pid cp cd group)
      = build_care_rows_without_plant_id cp cd group
    ∧ (fallback_flatten pid cp cd group = Except.ok (rows, k) →
        ∀ row ∈ rows, row.plant_id = pid) :=
  ⟨fallbackFlatten_map_eq pid cp cd group,
   fun h => fallbackFlatten_plant_id pid cp cd group rows k h⟩

/-- Witness for C5 at a concrete tabbed document. -/
theorem flatten_paths_equivalent_c5_witness :
    Except.map (fun p => p.1.map CareRowId.toCareRow)
        (fallback_flatten (Json.str "u1")
          (Json.obj [("tabs", Json.arr [Json.obj [("label", Json.str "Spring"),
            ("items", Json.arr [Json.obj [("text", Json.str "Water")]])]])])
          (Json.obj []) Json.null)
      = build_care_rows_without_plant_id
          (Json.obj [("tabs", Json.arr [Json.obj [("label", Json.str "Spring"),
            ("items", Json.arr [Json.obj [("text", Json.str "Water")]])]])])
          (Json.obj []) Json.null
    ∧ ∀ row ∈ [(⟨⟨"Spring", Json.null, "Water", Json.null, 1⟩,
          Json.str "u1"⟩ : CareRowId)],
        row.plant_id = Json.str "u1" := by
  have h := flatten_paths_equivalent_c5 (Json.str "u1")
    (Json.obj [("tabs", Json.arr [Json.obj [("label", Json.str "Spring"),
      ("items", Json.arr [Json.obj [("text", Json.str "Water")]])]])])
    (Json.obj []) Json.null
    [(⟨⟨"Spring", Json.null, "Water", Json.null, 1⟩, Json.str "u1"⟩ : CareRowId)] 0
  exact ⟨h.1, h.2 (by rfl)⟩

theorem buildItems_spec (phase : String) (il : List Json) (i : Nat) :
    buildItems phase i il = (List.enumFrom i il).filterMap (itemRowSpec phase) := by
  induction il generalizing i with
  | nil => rfl
  | cons item rest ih =>
    have he : List.enumFrom i (item :: rest) = (i, item) :: List.enumFrom (i + 1) rest := rfl
    rw [he, List.filterMap_cons]
    cases item with
    | obj ifs =>
      simp only [itemRowSpec]
      rw [buildItems]
      by_cases hv : invalidTextValue (objGet ifs "text") = true
      · rw [if_pos hv, if_pos hv]
        exact ih (i + 1)
      · rw [if_neg hv, if_neg hv, ih (i + 1)]
    | null => exact ih (i + 1)
    | bool b => exact ih (i + 1)
    | num n => exact ih (i + 1)
    | str s => exact ih (i + 1)
    | arr xs => exact ih (i + 1)

theorem buildSteps_spec (phase : String) (il : List Json) (i : Nat) :
    buildSteps phase i il = (List.enumFrom i il).filterMap (stepRowSpec phase) := by
  induction il generalizing i with
  | nil => rfl
  | cons st rest ih =>
    have he : List.enumFrom i (st :: rest) = (i, st) :: List.enumFrom (i + 1) rest := rfl
    rw [he, List.filterMap_cons]
    cases st with
    | obj sfs =>
      simp only [stepRowSpec]
      rw [buildSteps]
      by_cases hv : invalidTextValue (objGet sfs "step") = true
      · rw [if_pos hv, if_pos hv]
        exact ih (i + 1)
      · rw [if_neg hv, if_neg hv, ih (i + 1)]
    | null => exact ih (i + 1)
    | bool b => exact ih (i + 1)
    | num n => exact ih (i + 1)
    | str s => exact ih (i + 1)
    | arr xs => exact ih (i + 1)

theorem buildLegacyEntries_spec (entries : List (String × Json)) :
    buildLegacyEntries entries = legacyRowsSpec entries := by
  induction entries with
  | nil => rfl
  | cons e rest ih =>
    match e with
    | (phase, v) =>
      have hs : legacyRowsSpec ((phase, v) :: rest)
          = (match v with
             | Json.arr steps => steps.enum.filterMap (stepRowSpec phase)
             | _ => []) ++ legacyRowsSpec rest := by
        rw [legacyRowsSpec, List.flatMap_cons]
        rfl
      rw [hs]
      cases v with
      | arr steps =>
        show buildSteps phase 0 steps ++ buildLegacyEntries rest
          = steps.enum.filterMap (stepRowSpec phase) ++ legacyRowsSpec rest
        rw [ih, buildSteps_spec]
        rfl
      | null => rw [List.nil_append]; exact ih
      | bool b => rw [List.nil_append]; exact ih
      | num n => rw [List.nil_append]; exact ih
      | str s => rw [List.nil_append]; exact ih
      | obj fs => rw [List.nil_append]; exact ih

theorem tabbedRowsSpec_cons (style group tab : Json) (tl : List Json) :
    tabbedRowsSpec style group (tab :: tl)
      = (match tab with
         | Json.obj tfs =>
           (match pyOr (objGet tfs "items") (Json.arr []) with
            | Json.arr il => il.enum.filterMap (itemRowSpec (phaseLabelOfTab style group tfs))
            | _ => [])
         | _ => []) ++ tabbedRowsSpec style group tl := by
  rw [tabbedRowsSpec, tabbedRowsSpec, List.flatMap_cons]

theorem buildTabs_spec (style group : Json) (tl : List Json) (rows : List CareRow)
    (h : buildTabs style group tl = Except.ok rows) :
    rows = tabbedRowsSpec style group tl := by
  induction tl generalizing rows with
  | nil =>
    injection h with h
    rw [← h]
    rfl
  | cons tab rest ih =>
    cases tab with
    | obj tfs =>
      simp only [buildTabs] at h
      cases hmp : map_phase_from_tab style (objGet tfs "key") (objGet tfs "label") group with
      | error e =>
        rw [hmp] at h
        exact Except.noConfusion
          (show (Except.error e : Except String (List CareRow)) = Except.ok rows from h)
      | ok phase =>
        rw [hmp] at h
        cases hit : pyOr (objGet tfs "items") (Json.arr []) with
        | arr il =>
          rw [hit] at h
          cases hrest : buildTabs style group rest with
          | error e =>
            rw [hrest] at h
            exact Except.noConfusion
              (show (Except.error e : Except String (List CareRow)) = Except.ok rows from h)
          | ok restRows =>
            rw [hrest] at h
            have h2 : Except.ok (buildItems phase 0 il ++ restRows) = Except.ok rows := h
            injection h2 with h2
            rw [← h2, ih restRows hrest, tabbedRowsSpec_cons]
            simp only []
            rw [hit]
            have hpl : phaseLabelOfTab style group tfs = phase := by
              rw [phaseLabelOfTab, hmp]
            rw [hpl, buildItems_spec]
            rfl
        | null =>
          rw [hit] at h
          rw [ih rows h, tabbedRowsSpec_cons]
          simp only []
          rw [hit]
          rfl
        | bool b =>
          rw [hit] at h
          rw [ih rows h, tabbedRowsSpec_cons]
          simp only []
          rw [hit]
          rfl
        | num n =>
          rw [hit] at h
          rw [ih rows h, tabbedRowsSpec_cons]
          simp only []
          rw [hit]
          rfl
        | str s =>
          rw [hit] at h
          rw [ih rows h, tabbedRowsSpec_cons]
          simp only []
          rw [hit]
          rfl
        | obj fs2 =>
          rw [hit] at h
          rw [ih rows h, tabbedRowsSpec_cons]
          simp only []
          rw [hit]
          rfl
    | null =>
      simp only [buildTabs] at h
      rw [ih rows h]
      rfl
    | bool b =>
      simp only [buildTabs] at h
      rw [ih rows h]
      rfl
    | num n =>
      simp only [buildTabs] at h
      rw [ih rows h]
      rfl
    | str s =>
      simp only [buildTabs] at h
      rw [ih rows h]
      rfl
    | arr xs =>
      simp only [buildTabs] at h
      rw [ih rows h]
      rfl

theorem buildLegacyJ_spec (cd : Json) (rows : List CareRow)
    (h : buildLegacyJ cd = Except.ok rows) :
    rows = legacyRowsSpecJ cd := by
  cases cd with
  | obj entries =>
    have h2 : Except.ok (buildLegacyEntries entries) = Except.ok rows := h
    injection h2 with h2
    rw [← h2]
    exact buildLegacyEntries_spec entries
  | null => exact Except.noConfusion h
  | bool b => exact Except.noConfusion h
  | num n => exact Except.noConfusion h
  | str s => exact Except.noConfusion h
  | arr xs => exact Except.noConfusion h

theorem buildRows_spec (cp cd group : Json) (rows : List CareRow)
    (h : build_care_rows_without_plant_id cp cd group = Except.ok rows) :
    rows = buildRowsSpec cp cd group := by
  by_cases ht : pyTruthy cp = true
  · cases cp with
    | obj cpf =>
      unfold build_care_rows_without_plant_id at h
      rw [if_pos ht] at h
      simp only [] at h
      unfold buildRowsSpec
      rw [if_pos ht]
      simp only []
      cases hit : pyOr (objGet cpf "tabs") (Json.arr []) with
      | arr tl =>
        rw [hit] at h
        exact buildTabs_spec (objGet cpf "style") group tl rows h
      | null =>
        rw [hit] at h
        have h2 : Except.ok ([] : List CareRow) = Except.ok rows := h
        injection h2 with h2
        rw [← h2]
      | bool b =>
        rw [hit] at h
        have h2 : Except.ok ([] : List CareRow) = Except.ok rows := h
        injection h2 with h2
        rw [← h2]
      | num n =>
        rw [hit] at h
        have h2 : Except.ok ([] : List CareRow) = Except.ok rows := h
        injection h2 with h2
        rw [← h2]
      | str s =>
        rw [hit] at h
        have h2 : Except.ok ([] : List CareRow) = Except.ok rows := h
        injection h2 with h2
        rw [← h2]
      | obj fs =>
        rw [hit] at h
        have h2 : Except.ok ([] : List CareRow) = Except.ok rows := h
        injection h2 with h2
        rw [← h2]
    | null => exact absurd ht (by simp [pyTruthy])
    | bool b =>
      unfold build_care_rows_without_plant_id at h
      rw [if_pos ht] at h
      unfold buildRowsSpec
      rw [if_pos ht]
      exact buildLegacyJ_spec cd rows h
    | num n =>
      unfold build_care_rows_without_plant_id at h
      rw [if_pos ht] at h
      unfold buildRowsSpec
      rw [if_pos ht]
      exact buildLegacyJ_spec cd rows h
    | str s =>
      unfold build_care_rows_without_plant_id at h
      rw [if_pos ht] at h
      unfold buildRowsSpec
      rw [if_pos ht]
      exact buildLegacyJ_spec cd rows h
    | arr xs =>
      unfold build_care_rows_without_plant_id at h
      rw [if_pos ht] at h
      unfold buildRowsSpec
      rw [if_pos ht]
      exact buildLegacyJ_spec cd rows h
  · unfold build_care_rows_without_plant_id at h
    rw [if_neg ht] at h
    unfold buildRowsSpec
    rw [if_neg ht]
    exact buildLegacyJ_spec cd rows h

/-- C10. Every flattened instruction row's order_within_season is the
1-based enumerate position of its source item in its tab-items or
phase-steps list: both flattening paths compute exactly the
specification-side row list built by enumerating each list and keeping
(via filterMap, which never renumbers) the rows of the valid items, each
carrying order_within_season equal to its enumerate index plus one. -/
theorem order_within_season_c10 (cp cd group pid : Json) (rows : List CareRow)
    (frows : List CareRowId) (k : Nat) :
    (build_care_rows_without_plant_id cp cd group = Except.ok rows →
      rows = buildRowsSpec cp cd group)
    ∧ (fallback_flatten pid cp cd group = Except.ok (frows, k) →
      frows.map CareRowId.toCareRow = buildRowsSpec cp cd group) := by
  constructor
  · intro h
    exact buildRows_spec cp cd group rows h
  · intro h
    have hmap := fallbackFlatten_map_eq pid cp cd group
    rw [h] at hmap
    have h2 : build_care_rows_without_plant_id cp cd group
        = Except.ok (frows.map CareRowId.toCareRow) := hmap.symm
    exact buildRows_spec cp cd group (frows.map CareRowId.toCareRow) h2

/-- Witness for C10 at a concrete tabbed document with an invalid first
item: the surviving row keeps order_within_season 2. -/
theorem order_within_season_c10_witness :
    ([⟨"Spring", Json.null, "Water", Json.null, 2⟩] : List CareRow)
      = buildRowsSpec
          (Json.obj [("tabs", Json.arr [Json.obj [("label", Json.str "Spring"),
            ("items", Json.arr [Json.obj [("text", Json.str "  ")],
              Json.obj [("text", Json.str "Water")]])]])])
          (Json.obj []) Json.null
    ∧ ([⟨⟨"Spring", Json.null, "Water", Json.null, 2⟩, Json.str "u1"⟩] :
          List CareRowId).map CareRowId.toCareRow
      = buildRowsSpec
          (Json.obj [("tabs", Json.arr [Json.obj [("label", Json.str "Spring"),
            ("items", Json.arr [Json.obj [("text", Json.str "  ")],
              Json.obj [("text", Json.str "Water")]])]])])
          (Json.obj []) Json.null := by
  have h := order_within_season_c10
    (Json.obj [("tabs", Json.arr [Json.obj [("label", Json.str "Spring"),
      ("items", Json.arr [Json.obj [("text", Json.str "  ")],
        Json.obj [("text", Json.str "Water")]])]])])
    (Json.obj []) Json.null (Json.str "u1")
    [⟨"Spring", Json.null, "Water", Json.null, 2⟩]
    [⟨⟨"Spring", Json.null, "Water", Json.null, 2⟩, Json.str "u1"⟩] 1
  exact ⟨h.1 (by rfl), h.2 (by rfl)⟩

theorem attempt_obj_step (parse : String → Option Json) (res : LLMResult)
    (fs : List (String × Json))
    (he : endsWithBrace (pyRstrip res.content) = true)
    (hp : parse res.content = some (Json.obj fs)) :
    attemptStep parse (some res)
      = (if !(fs.any (fun p => p.1 == "is_plant")) then Except.ok none
         else if !(fs.any (fun p => p.1 == "plant_group")) then Except.ok none
         else if !(pyTruthy (objGet fs "is_plant")) then
           (match objGet fs "plant_group" with
            | Json.null => Except.ok (some ClassOut.notPlant)
            | _ => Except.ok none)
         else if !(jsonInStrList (objGet fs "plant_group") valid_plant_groups) then
           Except.ok none
         else (match objGet fs "plant_group" with
               | Json.str s => Except.ok (some (ClassOut.plant s))
               | _ => Except.ok none)) := by
  unfold attemptStep
  simp only []
  rw [hp, he]
  rfl

theorem attempt_obj_iff (parse : String → Option Json) (res : LLMResult)
    (fs : List (String × Json))
    (he : endsWithBrace (pyRstrip res.content) = true)
    (hp : parse res.content = some (Json.obj fs)) :
    attemptStep parse (some res) = Except.ok none ↔
      (fs.any (fun p => p.1 == "is_plant") = false
       ∨ (fs.any (fun p => p.1 == "is_plant") = true
            ∧ fs.any (fun p => p.1 == "plant_group") = false)
       ∨ (fs.any (fun p => p.1 == "is_plant") = true
            ∧ fs.any (fun p => p.1 == "plant_group") = true
            ∧ pyTruthy (objGet fs "is_plant") = false
            ∧ objGet fs "plant_group" ≠ Json.null)
       ∨ (fs.any (fun p => p.1 == "is_plant") = true
            ∧ fs.any (fun p => p.1 == "plant_group") = true
            ∧ pyTruthy (objGet fs "is_plant") = true
            ∧ jsonInStrList (objGet fs "plant_group") valid_plant_groups = false)) := by
  rw [attempt_obj_step parse res fs he hp]
  by_cases hA : fs.any (fun p => p.1 == "is_plant") = true
  · by_cases hB : fs.any (fun p => p.1 == "plant_group") = true
    · by_cases hT : pyTruthy (objGet fs "is_plant") = true
      · by_cases hJ : jsonInStrList (objGet fs "plant_group") valid_plant_groups = true
        · cases hPG : objGet fs "plant_group" with
          | str s => simp [hA, hB, hT, hJ, hPG]
          | null =>
            rw [hPG] at hJ
            simp [jsonInStrList] at hJ
          | bool b =>
            rw [hPG] at hJ
            simp [jsonInStrList] at hJ
          | num n =>
            rw [hPG] at hJ
            simp [jsonInStrList] at hJ
          | arr xs =>
            rw [hPG] at hJ
            simp [jsonInStrList] at hJ
          | obj fs2 =>
            rw [hPG] at hJ
            simp [jsonInStrList] at hJ
        · simp [hA, hB, hT, hJ]
      · cases hPG : objGet fs "plant_group" with
        | null => simp [hA, hB, hT, hPG]
        | bool b => simp [hA, hB, hT, hPG]
        | num n => simp [hA, hB, hT, hPG]
        | str s => simp [hA, hB, hT, hPG]
        | arr xs => simp [hA, hB, hT, hPG]
        | obj fs2 => simp [hA, hB, hT, hPG]
    · simp [hA, hB]
  · simp [hA]

theorem classifyLoop_congr (parse : String → Option Json)
    (resp resp2 : Nat → Option LLMResult) (fuel : Nat) :
    ∀ i, (∀ j, i ≤ j → j < i + fuel → resp j = resp2 j) →
      classifyLoop parse resp i fuel = classifyLoop parse resp2 i fuel := by
  induction fuel with
  | zero => intro i h; rfl
  | succ fuel ih =>
    intro i h
    rw [classifyLoop, classifyLoop, h i (Nat.le_refl i) (by omega)]
    cases attemptStep parse (resp2 i) with
    | error e => rfl
    | ok o =>
      cases o with
      | some out => rfl
      | none => exact ih (i + 1) (fun j hj1 hj2 => h j (by omega) (by omega))

theorem classifyLoop_step (parse : String → Option Json)
    (resp : Nat → Option LLMResult) (i fuel : Nat)
    (h : attemptStep parse (resp i) = Except.ok none) :
    classifyLoop parse resp i (fuel + 1) = classifyLoop parse resp (i + 1) fuel := by
  rw [classifyLoop, h]

/-- C3. classify_plant_group makes at most 3 attempts (the result depends
only on the first three oracle responses); an attempt whose parse yields a
dict is discarded exactly when the dict lacks the is_plant or plant_group
key, pairs a falsy is_plant with a non-null group, or pairs a truthy
is_plant with a group outside the 11-value enum; an empty response, a
response not ending in a closing brace after right-strip, or a response
failing the JSON parse is always discarded; and exhausting all three
attempts yields the failure value, which differs from the non-plant
success value. -/
theorem classify_retry_policy_c3 (parse : String → Option Json)
    (resp resp2 : Nat → Option LLMResult) (r : Option LLMResult) :
    ((∀ i, i < 3 → resp i = resp2 i) →
      classify_plant_group parse resp = classify_plant_group parse resp2)
    ∧ (∀ res fs, r = some res →
        endsWithBrace (pyRstrip res.content) = true →
        parse res.content = some (Json.obj fs) →
        (attemptStep parse r = Except.ok none ↔
          (fs.any (fun p => p.1 == "is_plant") = false
           ∨ (fs.any (fun p => p.1 == "is_plant") = true
                ∧ fs.any (fun p => p.1 == "plant_group") = false)
           ∨ (fs.any (fun p => p.1 == "is_plant") = true
                ∧ fs.any (fun p => p.1 == "plant_group") = true
                ∧ pyTruthy (objGet fs "is_plant") = false
                ∧ objGet fs "plant_group" ≠ Json.null)
           ∨ (fs.any (fun p => p.1 == "is_plant") = true
                ∧ fs.any (fun p => p.1 == "plant_group") = true
                ∧ pyTruthy (objGet fs "is_plant") = true
                ∧ jsonInStrList (objGet fs "plant_group") valid_plant_groups = false))))
    ∧ (r = none → attemptStep parse r = Except.ok none)
    ∧ (∀ res, r = some res → endsWithBrace (pyRstrip res.content) = false →
        attemptStep parse r = Except.ok none)
    ∧ (∀ res, r = some res → endsWithBrace (pyRstrip res.content) = true →
        parse res.content = none → attemptStep parse r = Except.ok none)
    ∧ ((attemptStep parse (resp 0) = Except.ok none
          ∧ attemptStep parse (resp 1) = Except.ok none
          ∧ attemptStep parse (resp 2) = Except.ok none) →
        classify_plant_group parse resp = Except.ok none)
    ∧ ((Except.ok (none : Option ClassOut) : Except String (Option ClassOut))
        ≠ Except.ok (some ClassOut.notPlant)) := by
  refine ⟨?_, ?_, ?_, ?_, ?_, ?_, ?_⟩
  · intro h
    exact classifyLoop_congr parse resp resp2 3 0 (fun j hj1 hj2 => h j (by omega))
  · intro res fs hr he hp
    rw [hr]
    exact attempt_obj_iff parse res fs he hp
  · intro hr
    rw [hr]
    rfl
  · intro res hr he
    rw [hr]
    unfold attemptStep
    simp only []
    rw [he]
    rfl
  · intro res hr he hp
    rw [hr]
    unfold attemptStep
    simp only []
    rw [he, hp]
    rfl
  · rintro ⟨h0, h1, h2⟩
    unfold classify_plant_group
    rw [show (3 : Nat) = 2 + 1 from rfl, classifyLoop_step parse resp 0 2 h0,
      show (2 : Nat) = 1 + 1 from rfl, classifyLoop_step parse resp 1 1 h1,
      show (1 : Nat) = 0 + 1 from rfl, classifyLoop_step parse resp 2 0 h2]
    rfl
  · intro h
    injection h with h
    exact Option.noConfusion h

/-- Witness for C3 at a concrete classifier run: every response parses to
a dict pairing a truthy is_plant with the invalid group Bananas, so all
three attempts are discarded and classification fails. -/
theorem classify_retry_policy_c3_witness :
    classify_plant_group
        (fun s => if s = "A\x7d"
          then some (Json.obj [("is_plant", Json.bool true),
            ("plant_group", Json.str "Bananas")])
          else none)
        (fun _ => some ⟨"A\x7d"⟩)
      = classify_plant_group
        (fun s => if s = "A\x7d"
          then some (Json.obj [("is_plant", Json.bool true),
            ("plant_group", Json.str "Bananas")])
          else none)
        (fun _ => some ⟨"A\x7d"⟩)
    ∧ (attemptStep
        (fun s => if s = "A\x7d"
          then some (Json.obj [("is_plant", Json.bool true),
            ("plant_group", Json.str "Bananas")])
          else none)
        (some ⟨"A\x7d"⟩) = Except.ok none ↔
        ([("is_plant", Json.bool true), ("plant_group", Json.str "Bananas")].any
            (fun p => p.1 == "is_plant") = false
         ∨ ([("is_plant", Json.bool true), ("plant_group", Json.str "Bananas")].any
              (fun p => p.1 == "is_plant") = true
            ∧ [("is_plant", Json.bool true), ("plant_group", Json.str "Bananas")].any
              (fun p => p.1 == "plant_group") = false)
         ∨ ([("is_plant", Json.bool true), ("plant_group", Json.str "Bananas")].any
              (fun p => p.1 == "is_plant") = true
            ∧ [("is_plant", Json.bool true), ("plant_group", Json.str "Bananas")].any
              (fun p => p.1 == "plant_group") = true
            ∧ pyTruthy (objGet [("is_plant", Json.bool true),
                ("plant_group", Json.str "Bananas")] "is_plant") = false
            ∧ objGet [("is_plant", Json.bool true),
                ("plant_group", Json.str "Bananas")] "plant_group" ≠ Json.null)
         ∨ ([("is_plant", Json.bool true), ("plant_group", Json.str "Bananas")].any
              (fun p => p.1 == "is_plant") = true
            ∧ [("is_plant", Json.bool true), ("plant_group", Json.str "Bananas")].any
              (fun p => p.1 == "plant_group") = true
            ∧ pyTruthy (objGet [("is_plant", Json.bool true),
                ("plant_group", Json.str "Bananas")] "is_plant") = true
            ∧ jsonInStrList (objGet [("is_plant", Json.bool true),
                ("plant_group", Json.str "Bananas")] "plant_group")
                valid_plant_groups = false)))
    ∧ classify_plant_group
        (fun s => if s = "A\x7d"
          then some (Json.obj [("is_plant", Json.bool true),
            ("plant_group", Json.str "Bananas")])
          else none)
        (fun _ => some ⟨"A\x7d"⟩) = Except.ok none := by
  have h := classify_retry_policy_c3
    (fun s => if s = "A\x7d"
      then some (Json.obj [("is_plant", Json.bool true),
        ("plant_group", Json.str "Bananas")])
      else none)
    (fun _ => some ⟨"A\x7d"⟩) (fun _ => some ⟨"A\x7d"⟩)
    (some ⟨"A\x7d"⟩)
  refine ⟨h.1 (fun i _ => rfl), ?_, ?_⟩
  · exact h.2.1 ⟨"A\x7d"⟩
      [("is_plant", Json.bool true), ("plant_group", Json.str "Bananas")]
      rfl (by rfl) (by rfl)
  · exact h.2.2.2.2.2.1 ⟨by rfl, by rfl, by rfl⟩

/-- C1. The claim is the specified behaviour; the code violates it: when
classification succeeds with the non-plant outcome, the pipeline does not
return the non-plant response shape but raises KeyError on the missing
plant_group key of the sentinel dict, which surfaces as a framework 500
instead of a 200 non-plant body. -/
theorem nonplant_keyerror_c1 (parse : String → Option Json)
    (resp : Nat → Option LLMResult) (genEnv : String → Option Json)
    (user_zone : String) (env : DbEnv)
    (h : classify_plant_group parse resp = Except.ok (some ClassOut.notPlant)) :
    generate_plant_care_instructions parse resp genEnv user_zone env
      = Except.error "KeyError: plant_group"
    ∧ plant_care_endpoint parse resp genEnv user_zone env
      = HttpResult.internalError "KeyError: plant_group" := by
  have hg : get_plant_group_and_prompt parse resp
      = Except.ok (some (Json.obj [("is_plant", Json.bool false)])) := by
    unfold get_plant_group_and_prompt
    rw [h]
  have hmain : generate_plant_care_instructions parse resp genEnv user_zone env
      = Except.error "KeyError: plant_group" := by
    unfold generate_plant_care_instructions
    rw [hg]
    rfl
  refine ⟨hmain, ?_⟩
  unfold plant_care_endpoint
  rw [hmain]

/-- Witness for C1 at a concrete classifier run that returns the
non-plant outcome. -/
theorem nonplant_keyerror_c1_witness :
    generate_plant_care_instructions
        (fun s => if s = "N\x7d"
          then some (Json.obj [("is_plant", Json.bool false), ("plant_group", Json.null)])
          else none)
        (fun _ => some ⟨"N\x7d"⟩) (fun _ => none) "5"
        ⟨DbRes.respNone, DbRes.respNone, DbRes.respNone, DbRes.respNone,
         DbRes.respNone, DbRes.respNone⟩
      = Except.error "KeyError: plant_group"
    ∧ plant_care_endpoint
        (fun s => if s = "N\x7d"
          then some (Json.obj [("is_plant", Json.bool false), ("plant_group", Json.null)])
          else none)
        (fun _ => some ⟨"N\x7d"⟩) (fun _ => none) "5"
        ⟨DbRes.respNone, DbRes.respNone, DbRes.respNone, DbRes.respNone,
         DbRes.respNone, DbRes.respNone⟩
      = HttpResult.internalError "KeyError: plant_group" :=
  nonplant_keyerror_c1
    (fun s => if s = "N\x7d"
      then some (Json.obj [("is_plant", Json.bool false), ("plant_group", Json.null)])
      else none)
    (fun _ => some ⟨"N\x7d"⟩) (fun _ => none) "5"
    ⟨DbRes.respNone, DbRes.respNone, DbRes.respNone, DbRes.respNone,
     DbRes.respNone, DbRes.respNone⟩
    (by rfl)

theorem lookup_mem_values (g f : String) (l : List (String × String))
    (h : List.lookup g l = some f) : f ∈ l.map Prod.snd := by
  induction l with
  | nil => exact absurd h (by simp [List.lookup])
  | cons p rest ih =>
    match p with
    | (k, v) =>
      rw [List.lookup] at h
      by_cases hk : (g == k) = true
      · rw [hk] at h
        injection h with h
        rw [← h]
        exact List.mem_cons_self _ _
      · have hk' : (g == k) = false := by
          cases hx : g == k
          · rfl
          · exact absurd hx hk
        rw [hk'] at h
        exact List.mem_cons_of_mem _ (ih h)

theorem dispatch_of_lookup (genEnv : String → Option Json) (g f : String)
    (hl : List.lookup g CATEGORY_TO_PROMPT = some f) :
    dispatchCare genEnv (Json.str f) = genEnv f := by
  have hmem := lookup_mem_values g f CATEGORY_TO_PROMPT hl
  have hmem2 : f ∈ ["edible_annuals", "edible_annuals", "fruit_trees",
      "ornamental_perennials", "ornamental_perennials", "ornamental_perennials",
      "annual_flowers", "houseplants", "succulents", "bulbs",
      "ornamental_perennials"] := hmem
  fin_cases hmem2 <;> rfl

theorem generate_through_store (parse : String → Option Json)
    (resp : Nat → Option LLMResult) (genEnv : String → Option Json)
    (user_zone : String) (env : DbEnv) (g f : String) (ci : Json)
    (hc : classify_plant_group parse resp = Except.ok (some (ClassOut.plant g)))
    (hl : List.lookup g CATEGORY_TO_PROMPT = some f)
    (hg : genEnv f = some ci) :
    generate_plant_care_instructions parse resp genEnv user_zone env
      = (match store_plant_and_care_instructions ci user_zone
            "google/gemini-2.5-flash-preview" (Json.str g) env with
         | Except.error e => Except.error e
         | Except.ok _ => Except.ok (some ci)) := by
  have hgp : get_plant_group_and_prompt parse resp
      = Except.ok (some (Json.obj [("is_plant", Json.bool true),
          ("plant_group", Json.str g), ("prompt_function", Json.str f)])) := by
    unfold get_plant_group_and_prompt
    rw [hc]
    simp only []
    rw [hl]
  have hd : dispatchCare genEnv (Json.str f) = genEnv f := dispatch_of_lookup genEnv g f hl
  unfold generate_plant_care_instructions
  rw [hgp]
  have hidx1 : pyIndex (Json.obj [("is_plant", Json.bool true),
      ("plant_group", Json.str g), ("prompt_function", Json.str f)]) "plant_group"
      = Except.ok (Json.str g) := rfl
  have hidx2 : pyIndex (Json.obj [("is_plant", Json.bool true),
      ("plant_group", Json.str g), ("prompt_function", Json.str f)]) "prompt_function"
      = Except.ok (Json.str f) := rfl
  show (match pyIndex (Json.obj [("is_plant", Json.bool true),
      ("plant_group", Json.str g), ("prompt_function", Json.str f)]) "plant_group" with
    | Except.error e => Except.error e
    | Except.ok plant_group =>
      match pyIndex (Json.obj [("is_plant", Json.bool true),
          ("plant_group", Json.str g), ("prompt_function", Json.str f)]) "prompt_function" with
      | Except.error e => Except.error e
      | Except.ok prompt_function =>
        match dispatchCare genEnv prompt_function with
        | none => Except.ok none
        | some care_info =>
          match store_plant_and_care_instructions care_info user_zone
              "google/gemini-2.5-flash-preview" plant_group env with
          | Except.error e => Except.error e
          | Except.ok _ => Except.ok (some care_info)) = _
  rw [hidx1]
  simp only []
  rw [hidx2]
  simp only []
  rw [hd, hg]

/-- C2 counterexample. The claim is false on the code: at this concrete
request the store call fails (returns false), yet the pipeline returns
the generated document and the endpoint answers with a 200 success body,
not a persistence-failure status. -/
theorem persistence_failure_claim_false_c2 :
    Except.map Prod.fst
        (store_plant_and_care_instructions
          (Json.obj [("plantName", Json.str "Tomato"),
            ("care", Json.obj [("spring", Json.arr
              [Json.obj [("step", Json.str "Water"), ("months", Json.str "May")]])])])
          "5" "google/gemini-2.5-flash-preview" (Json.str "Vegetables")
          ⟨DbRes.respNone, DbRes.respNone, DbRes.respNone, DbRes.respNone,
           DbRes.respNone, DbRes.respNone⟩)
      = Except.ok false
    ∧ plant_care_endpoint
        (fun s => if s = "P\x7d"
          then some (Json.obj [("is_plant", Json.bool true),
            ("plant_group", Json.str "Vegetables")])
          else none)
        (fun _ => some ⟨"P\x7d"⟩)
        (fun f => if f = "edible_annuals"
          then some (Json.obj [("plantName", Json.str "Tomato"),
            ("care", Json.obj [("spring", Json.arr
              [Json.obj [("step", Json.str "Water"), ("months", Json.str "May")]])])])
          else none)
        "5"
        ⟨DbRes.respNone, DbRes.respNone, DbRes.respNone, DbRes.respNone,
         DbRes.respNone, DbRes.respNone⟩
      = HttpResult.success
          (Json.obj [("plantName", Json.str "Tomato"),
            ("care", Json.obj [("spring", Json.arr
              [Json.obj [("step", Json.str "Water"), ("months", Json.str "May")]])])]) := by
  exact ⟨by rfl, by rfl⟩

/-- C2 (amended). When persistence fails after a successful generation,
the pipeline logs the failure but still returns the generated document,
and the endpoint reports a normal 200 success carrying the document (no
500-class persistence failure is surfaced). -/
theorem persistence_failure_amended_c2 (parse : String → Option Json)
    (resp : Nat → Option LLMResult) (genEnv : String → Option Json)
    (user_zone : String) (env : DbEnv) (g f : String) (ci : Json) (tr : StoreTrace)
    (hc : classify_plant_group parse resp = Except.ok (some (ClassOut.plant g)))
    (hl : List.lookup g CATEGORY_TO_PROMPT = some f)
    (hg : genEnv f = some ci)
    (hs : store_plant_and_care_instructions ci user_zone
        "google/gemini-2.5-flash-preview" (Json.str g) env = Except.ok (false, tr)) :
    generate_plant_care_instructions parse resp genEnv user_zone env
      = Except.ok (some ci)
    ∧ plant_care_endpoint parse resp genEnv user_zone env = HttpResult.success ci := by
  have hmain : generate_plant_care_instructions parse resp genEnv user_zone env
      = Except.ok (some ci) := by
    rw [generate_through_store parse resp genEnv user_zone env g f ci hc hl hg, hs]
  refine ⟨hmain, ?_⟩
  unfold plant_care_endpoint
  rw [hmain]

/-- Witness for C2 (amended) at the concrete run of the counterexample. -/
theorem persistence_failure_amended_c2_witness :
    generate_plant_care_instructions
        (fun s => if s = "P\x7d"
          then some (Json.obj [("is_plant", Json.bool true),
            ("plant_group", Json.str "Vegetables")])
          else none)
        (fun _ => some ⟨"P\x7d"⟩)
        (fun f => if f = "edible_annuals"
          then some (Json.obj [("plantName", Json.str "Tomato"),
            ("care", Json.obj [("spring", Json.arr
              [Json.obj [("step", Json.str "Water"), ("months", Json.str "May")]])])])
          else none)
        "5"
        ⟨DbRes.respNone, DbRes.respNone, DbRes.respNone, DbRes.respNone,
         DbRes.respNone, DbRes.respNone⟩
      = Except.ok (some (Json.obj [("plantName", Json.str "Tomato"),
          ("care", Json.obj [("spring", Json.arr
            [Json.obj [("step", Json.str "Water"), ("months", Json.str "May")]])])])) := by
  have h := persistence_failure_amended_c2
    (fun s => if s = "P\x7d"
      then some (Json.obj [("is_plant", Json.bool true),
        ("plant_group", Json.str "Vegetables")])
      else none)
    (fun _ => some ⟨"P\x7d"⟩)
    (fun f => if f = "edible_annuals"
      then some (Json.obj [("plantName", Json.str "Tomato"),
        ("care", Json.obj [("spring", Json.arr
          [Json.obj [("step", Json.str "Water"), ("months", Json.str "May")]])])])
      else none)
    "5"
    ⟨DbRes.respNone, DbRes.respNone, DbRes.respNone, DbRes.respNone,
     DbRes.respNone, DbRes.respNone⟩
    "Vegetables" "edible_annuals"
    (Json.obj [("plantName", Json.str "Tomato"),
      ("care", Json.obj [("spring", Json.arr
        [Json.obj [("step", Json.str "Water"), ("months", Json.str "May")]])])])
    ⟨some ⟨plant_data_for_upsert
        [("plantName", Json.str "Tomato"),
         ("care", Json.obj [("spring", Json.arr
           [Json.obj [("step", Json.str "Water"), ("months", Json.str "May")]])])]
        "google/gemini-2.5-flash-preview" (Json.str "Vegetables") (some "5"),
      [⟨"spring", Json.str "May", "Water", Json.null, 1⟩],
      ⟨Json.str "Tomato", some "5", Json.str "Vegetables"⟩⟩,
     some (PlantQuery.outdoorQuery (Json.str "Tomato") "5"), [], none⟩
    (by rfl) (by rfl) (by rfl) (by rfl)
  exact h.1

theorem plantStage_trace (payload : PlantPayload) (q : PlantQuery) (env : DbEnv)
    (tr : StoreTrace) :
    ((stageTrace (plantStage payload q env tr)).plantWrites = tr.plantWrites
        ∨ (stageTrace (plantStage payload q env tr)).plantWrites
            = tr.plantWrites ++ [payload])
      ∧ (stageTrace (plantStage payload q env tr)).findQuery = some q
      ∧ (stageTrace (plantStage payload q env tr)).rpcCall = tr.rpcCall
      ∧ (stageTrace (plantStage payload q env tr)).careInsert = tr.careInsert := by
  unfold plantStage
  cases env.find with
  | raise => simp [stageTrace]
  | respNone => simp [stageTrace]
  | resp rows =>
    cases rows with
    | nil =>
      cases env.insertPlant with
      | raise => simp [stageTrace]
      | respNone => simp [stageTrace]
      | resp irows =>
        cases irows with
        | nil => simp [stageTrace]
        | cons r0 rest =>
          cases r0 with
          | obj fs =>
            by_cases hu : pyTruthy (objGet fs "plant_id") = true
            · simp [stageTrace, hu]
            · simp [stageTrace, hu]
          | null => simp [stageTrace]
          | bool b => simp [stageTrace]
          | num n => simp [stageTrace]
          | str s => simp [stageTrace]
          | arr xs => simp [stageTrace]
    | cons r0 rest =>
      cases r0 with
      | obj fs =>
        by_cases hu : pyTruthy (objGet fs "plant_id") = true
        · cases env.update with
          | raise => simp [stageTrace, hu]
          | respNone => simp [stageTrace, hu]
          | resp d => simp [stageTrace, hu]
        · simp [stageTrace, hu]
      | null => simp [stageTrace]
      | bool b => simp [stageTrace]
      | num n => simp [stageTrace]
      | str s => simp [stageTrace]
      | arr xs => simp [stageTrace]

theorem insertCareStage_trace (rows : List CareRowId) (skipped : Nat) (env : DbEnv)
    (tr : StoreTrace) :
    (insertCareStage rows skipped env tr).2.plantWrites = tr.plantWrites
      ∧ (insertCareStage rows skipped env tr).2.findQuery = tr.findQuery
      ∧ (insertCareStage rows skipped env tr).2.rpcCall = tr.rpcCall := by
  unfold insertCareStage
  by_cases hr : rows.isEmpty = true
  · by_cases hs : skipped > 0
    · simp [hr, hs]
    · simp [hr, hs]
  · cases env.insertCare with
    | raise => simp [hr]
    | respNone => simp [hr]
    | resp data =>
      by_cases hd : (data.isEmpty || data.length != rows.length) = true
      · simp [hr, hd]
      · simp [hr, hd]

theorem storeFallback_trace (payload : PlantPayload) (q : PlantQuery)
    (cp cd g : Json) (env : DbEnv) (tr : StoreTrace) :
    ((storeFallback payload q cp cd g env tr).2.plantWrites = tr.plantWrites
        ∨ (storeFallback payload q cp cd g env tr).2.plantWrites
            = tr.plantWrites ++ [payload])
      ∧ (storeFallback payload q cp cd g env tr).2.findQuery = some q
      ∧ (storeFallback payload q cp cd g env tr).2.rpcCall = tr.rpcCall := by
  rcases plantStage_trace payload q env tr with ⟨hw, hf, hr, hc⟩
  unfold storeFallback
  cases hps : plantStage payload q env tr with
  | inl t =>
    rw [hps] at hw hf hr
    exact ⟨hw, hf, hr⟩
  | inr p =>
    match p with
    | (uuid, t) =>
      rw [hps] at hw hf hr
      have ht : stageTrace (Sum.inr (uuid, t)) = t := rfl
      rw [ht] at hw hf hr
      simp only []
      cases env.deleteCare with
      | raise => exact ⟨hw, hf, hr⟩
      | respNone =>
        cases hfl : fallback_flatten uuid cp cd g with
        | error e => exact ⟨hw, hf, hr⟩
        | ok pr =>
          match pr with
          | (rows, skipped) =>
            rcases insertCareStage_trace rows skipped env t with ⟨iw, iff2, ir⟩
            exact ⟨by rw [iw]; exact hw, by rw [iff2]; exact hf, by rw [ir]; exact hr⟩
      | resp d =>
        cases hfl : fallback_flatten uuid cp cd g with
        | error e => exact ⟨hw, hf, hr⟩
        | ok pr =>
          match pr with
          | (rows, skipped) =>
            rcases insertCareStage_trace rows skipped env t with ⟨iw, iff2, ir⟩
            exact ⟨by rw [iw]; exact hw, by rw [iff2]; exact hf, by rw [ir]; exact hr⟩

theorem fallback_result_trace (payload : PlantPayload) (q : PlantQuery) (cp cd g : Json)
    (env : DbEnv) (rp0 : RpcParams) (b : Bool) (tr : StoreTrace)
    (h : (b, tr) = storeFallback payload q cp cd g env ⟨some rp0, none, [], none⟩) :
    (∀ p ∈ tr.plantWrites, p = payload)
    ∧ (∀ rp, tr.rpcCall = some rp → rp = rp0)
    ∧ (∀ fq, tr.findQuery = some fq → fq = q) := by
  rcases storeFallback_trace payload q cp cd g env ⟨some rp0, none, [], none⟩ with ⟨hw, hf, hr⟩
  have htr : tr = (storeFallback payload q cp cd g env ⟨some rp0, none, [], none⟩).2 := by
    rw [← h]
  refine ⟨?_, ?_, ?_⟩
  · intro p hp
    rw [htr] at hp
    rcases hw with hw | hw
    · rw [hw] at hp
      exact absurd hp (by simp)
    · rw [hw] at hp
      simp at hp
      exact hp
  · intro rp hrp
    rw [htr, hr] at hrp
    injection hrp with hrp
    exact hrp.symm
  · intro fq hfq
    rw [htr, hf] at hfq
    injection hfq with hfq
    exact hfq.symm

/-- C4. The zone policy and identity rule of the store: for houseplants
and succulents the persisted zone is null and the find query (the
identity) does not depend on the supplied zone; for every other group the
supplied zone is persisted verbatim; and in every store run each plant
payload written (by the fallback update or insert) and the RPC plant and
lookup payloads all carry exactly the shared zone_for_persistence value,
so the rule is applied identically on both paths. -/
theorem zone_identity_policy_c4 (fields : List (String × Json)) (uz uz2 : String)
    (model : String) (pg : Json) (env : DbEnv) (b : Bool) (tr : StoreTrace)
    (hst : store_plant_and_care_instructions (Json.obj fields) uz model pg env
      = Except.ok (b, tr)) :
    (isHouseOrSucculent (pyOr pg (objGet fields "plant_group")) = true →
      zone_for_persistence (pyOr pg (objGet fields "plant_group")) uz = none
      ∧ plant_find_query (pyOr pg (objGet fields "plant_group"))
          (objGet fields "plantName") uz
        = plant_find_query (pyOr pg (objGet fields "plant_group"))
          (objGet fields "plantName") uz2)
    ∧ (isHouseOrSucculent (pyOr pg (objGet fields "plant_group")) = false →
      zone_for_persistence (pyOr pg (objGet fields "plant_group")) uz = some uz)
    ∧ (∀ p ∈ tr.plantWrites,
        p = plant_data_for_upsert fields model (pyOr pg (objGet fields "plant_group"))
            (zone_for_persistence (pyOr pg (objGet fields "plant_group")) uz))
    ∧ (∀ rp, tr.rpcCall = some rp →
        rp.plant = plant_data_for_upsert fields model (pyOr pg (objGet fields "plant_group"))
            (zone_for_persistence (pyOr pg (objGet fields "plant_group")) uz)
        ∧ rp.lookup.zone = zone_for_persistence (pyOr pg (objGet fields "plant_group")) uz)
    ∧ (∀ fq, tr.findQuery = some fq →
        fq = plant_find_query (pyOr pg (objGet fields "plant_group"))
            (objGet fields "plantName") uz) := by
  refine ⟨?_, ?_, ?_⟩
  · intro h
    constructor
    · unfold zone_for_persistence
      rw [if_pos h]
    · unfold plant_find_query
      rw [if_pos h, if_pos h]
  · intro h
    unfold zone_for_persistence
    rw [h]
    rfl
  · unfold store_plant_and_care_instructions at hst
    simp only [] at hst
    by_cases h1 : (!(pyTruthy (objGet fields "plantName"))
        || (uz.toList.isEmpty
            && !(isHouseOrSucculent (pyOr pg (objGet fields "plant_group"))))) = true
    · rw [if_pos h1] at hst
      injection hst with hst
      have htr : tr = emptyTrace := (congrArg Prod.snd hst).symm
      rw [htr]
      refine ⟨?_, ?_, ?_⟩
      · intro p hp
        exact absurd hp (by simp [emptyTrace])
      · intro rp hrp
        exact absurd hrp (by simp [emptyTrace])
      · intro fq hfq
        exact absurd hfq (by simp [emptyTrace])
    · rw [if_neg h1] at hst
      by_cases h2 : (!(pyTruthy (objGet fields "care_plan"))
          && !((validate_care_structure (objGetD fields "care" (Json.obj []))).valid)) = true
      · rw [if_pos h2] at hst
        injection hst with hst
        have htr : tr = emptyTrace := (congrArg Prod.snd hst).symm
        rw [htr]
        refine ⟨?_, ?_, ?_⟩
        · intro p hp
          exact absurd hp (by simp [emptyTrace])
        · intro rp hrp
          exact absurd hrp (by simp [emptyTrace])
        · intro fq hfq
          exact absurd hfq (by simp [emptyTrace])
      · rw [if_neg h2] at hst
        cases hbr : build_care_rows_without_plant_id (objGet fields "care_plan")
            (objGetD fields "care" (Json.obj []))
            (pyOr pg (objGet fields "plant_group")) with
        | error e =>
          rw [hbr] at hst
          exact Except.noConfusion hst
        | ok rrows =>
          rw [hbr] at hst
          simp only [] at hst
          cases henv : env.rpc with
          | resp d =>
            rw [henv] at hst
            simp only [] at hst
            by_cases hsucc : rpcSuccess d = true
            · rw [if_pos hsucc] at hst
              injection hst with hst
              injection hst with hb htr
              rw [← htr]
              refine ⟨?_, ?_, ?_⟩
              · intro p hp
                exact absurd hp (by simp [emptyTrace])
              · intro rp hrp
                simp [emptyTrace] at hrp
                rw [← hrp]
                exact ⟨rfl, rfl⟩
              · intro fq hfq
                exact absurd hfq (by simp [emptyTrace])
            · rw [if_neg hsucc] at hst
              injection hst with hst
              rcases fallback_result_trace
                  (plant_data_for_upsert fields model
                    (pyOr pg (objGet fields "plant_group"))
                    (zone_for_persistence (pyOr pg (objGet fields "plant_group")) uz))
                  (plant_find_query (pyOr pg (objGet fields "plant_group"))
                    (objGet fields "plantName") uz)
                  (objGet fields "care_plan") (objGetD fields "care" (Json.obj []))
                  (pyOr pg (objGet fields "plant_group")) env
                  ⟨plant_data_for_upsert fields model
                    (pyOr pg (objGet fields "plant_group"))
                    (zone_for_persistence (pyOr pg (objGet fields "plant_group")) uz), rrows,
                   ⟨objGet fields "plantName",
                    zone_for_persistence (pyOr pg (objGet fields "plant_group")) uz,
                    pyOr pg (objGet fields "plant_group")⟩⟩
                  b tr hst.symm with ⟨cw, cr, cf⟩
              refine ⟨?_, ?_, ?_⟩
              · intro p hp
                exact cw p hp
              · intro rp hrp
                rw [cr rp hrp]
                exact ⟨rfl, rfl⟩
              · intro fq hfq
                exact cf fq hfq
          | raise =>
            rw [henv] at hst
            simp only [] at hst
            injection hst with hst
            rcases fallback_result_trace
                (plant_data_for_upsert fields model
                  (pyOr pg (objGet fields "plant_group"))
                  (zone_for_persistence (pyOr pg (objGet fields "plant_group")) uz))
                (plant_find_query (pyOr pg (objGet fields "plant_group"))
                  (objGet fields "plantName") uz)
                (objGet fields "care_plan") (objGetD fields "care" (Json.obj []))
                (pyOr pg (objGet fields "plant_group")) env
                ⟨plant_data_for_upsert fields model
                  (pyOr pg (objGet fields "plant_group"))
                  (zone_for_persistence (pyOr pg (objGet fields "plant_group")) uz), rrows,
                 ⟨objGet fields "plantName",
                  zone_for_persistence (pyOr pg (objGet fields "plant_group")) uz,
                  pyOr pg (objGet fields "plant_group")⟩⟩
                b tr hst.symm with ⟨cw, cr, cf⟩
            refine ⟨?_, ?_, ?_⟩
            · intro p hp
              exact cw p hp
            · intro rp hrp
              rw [cr rp hrp]
              exact ⟨rfl, rfl⟩
            · intro fq hfq
              exact cf fq hfq
          | respNone =>
            rw [henv] at hst
            simp only [] at hst
            injection hst with hst
            rcases fallback_result_trace
                (plant_data_for_upsert fields model
                  (pyOr pg (objGet fields "plant_group"))
                  (zone_for_persistence (pyOr pg (objGet fields "plant_group")) uz))
                (plant_find_query (pyOr pg (objGet fields "plant_group"))
                  (objGet fields "plantName") uz)
                (objGet fields "care_plan") (objGetD fields "care" (Json.obj []))
                (pyOr pg (objGet fields "plant_group")) env
                ⟨plant_data_for_upsert fields model
                  (pyOr pg (objGet fields "plant_group"))
                  (zone_for_persistence (pyOr pg (objGet fields "plant_group")) uz), rrows,
                 ⟨objGet fields "plantName",
                  zone_for_persistence (pyOr pg (objGet fields "plant_group")) uz,
                  pyOr pg (objGet fields "plant_group")⟩⟩
                b tr hst.symm with ⟨cw, cr, cf⟩
            refine ⟨?_, ?_, ?_⟩
            · intro p hp
              exact cw p hp
            · intro rp hrp
              rw [cr rp hrp]
              exact ⟨rfl, rfl⟩
            · intro fq hfq
              exact cf fq hfq

theorem zone_identity_policy_c4_witness :
    store_plant_and_care_instructions
        (Json.obj [("plantName", Json.str "Aloe"),
          ("plant_group", Json.str "Succulents")]) "5" "m" Json.null
        ⟨DbRes.respNone, DbRes.respNone, DbRes.respNone, DbRes.respNone,
         DbRes.respNone, DbRes.respNone⟩
      = Except.ok (false,
          ⟨some ⟨plant_data_for_upsert [("plantName", Json.str "Aloe"),
              ("plant_group", Json.str "Succulents")] "m" (Json.str "Succulents") none, [],
            ⟨Json.str "Aloe", none, Json.str "Succulents"⟩⟩,
           some (PlantQuery.houseQuery (Json.str "Aloe") (Json.str "Succulents")), [], none⟩)
    ∧ ((isHouseOrSucculent (Json.str "Succulents") = true →
        zone_for_persistence (Json.str "Succulents") "5" = none
        ∧ plant_find_query (Json.str "Succulents") (Json.str "Aloe") "5"
          = plant_find_query (Json.str "Succulents") (Json.str "Aloe") "7")
      ∧ (isHouseOrSucculent (Json.str "Succulents") = false →
         zone_for_persistence (Json.str "Succulents") "5" = some "5")
      ∧ (∀ p ∈ ([] : List PlantPayload),
          p = plant_data_for_upsert [("plantName", Json.str "Aloe"),
              ("plant_group", Json.str "Succulents")] "m" (Json.str "Succulents") none)
      ∧ (∀ rp : RpcParams,
          some (⟨plant_data_for_upsert [("plantName", Json.str "Aloe"),
              ("plant_group", Json.str "Succulents")] "m" (Json.str "Succulents") none, [],
            ⟨Json.str "Aloe", none, Json.str "Succulents"⟩⟩ : RpcParams) = some rp →
          rp.plant = plant_data_for_upsert [("plantName", Json.str "Aloe"),
              ("plant_group", Json.str "Succulents")] "m" (Json.str "Succulents") none
          ∧ rp.lookup.zone = none)
      ∧ (∀ fq, some (PlantQuery.houseQuery (Json.str "Aloe") (Json.str "Succulents"))
            = some fq →
          fq = plant_find_query (Json.str "Succulents") (Json.str "Aloe") "5")) :=
  ⟨by rfl,
   zone_identity_policy_c4 [("plantName", Json.str "Aloe"),
       ("plant_group", Json.str "Succulents")] "5" "7" "m" Json.null
     ⟨DbRes.respNone, DbRes.respNone, DbRes.respNone, DbRes.respNone,
      DbRes.respNone, DbRes.respNone⟩ false
     ⟨some ⟨plant_data_for_upsert [("plantName", Json.str "Aloe"),
         ("plant_group", Json.str "Succulents")] "m" (Json.str "Succulents") none, [],
       ⟨Json.str "Aloe", none, Json.str "Succulents"⟩⟩,
      some (PlantQuery.houseQuery (Json.str "Aloe") (Json.str "Succulents")), [], none⟩
     (by rfl)⟩

/-- C6. The fallback instruction-insert stage: an empty flattened row
list with zero skipped instructions returns true (successful no-op); an
empty row list with at least one skipped instruction returns false; and
when the confirmed inserted row count differs from the requested row
count the stage returns false. -/
theorem insert_stage_outcomes_c6 (rows : List CareRowId) (skipped : Nat)
    (env : DbEnv) (tr : StoreTrace) :
    (rows = [] → skipped = 0 → (insertCareStage rows skipped env tr).1 = true)
    ∧ (rows = [] → 0 < skipped → (insertCareStage rows skipped env tr).1 = false)
    ∧ (∀ data, rows ≠ [] → env.insertCare = DbRes.resp data →
        data.length ≠ rows.length → (insertCareStage rows skipped env tr).1 = false) := by
  refine ⟨?_, ?_, ?_⟩
  · intro hr hs
    subst hr
    subst hs
    rfl
  · intro hr hs
    subst hr
    unfold insertCareStage
    simp only [List.isEmpty_nil, if_true]
    rw [if_pos hs]
  · intro data hr hin hlen
    have he : rows.isEmpty = false := by
      cases rows with
      | nil => exact absurd rfl hr
      | cons a l => rfl
    unfold insertCareStage
    rw [he]
    simp only [Bool.false_eq_true, if_false]
    rw [hin]
    simp only []
    have hc : (data.isEmpty || data.length != rows.length) = true := by
      have hb : (data.length != rows.length) = true := by simpa using hlen
      rw [hb, Bool.or_true]
    rw [if_pos hc]

theorem insert_stage_outcomes_c6_witness :
    (insertCareStage [] 0
        ⟨DbRes.respNone, DbRes.respNone, DbRes.respNone, DbRes.respNone,
         DbRes.respNone, DbRes.respNone⟩ emptyTrace).1 = true
    ∧ (insertCareStage [] 3
        ⟨DbRes.respNone, DbRes.respNone, DbRes.respNone, DbRes.respNone,
         DbRes.respNone, DbRes.respNone⟩ emptyTrace).1 = false
    ∧ (insertCareStage [⟨⟨"spring", Json.null, "Water", Json.null, 1⟩, Json.str "u"⟩] 0
        ⟨DbRes.respNone, DbRes.respNone, DbRes.respNone, DbRes.respNone,
         DbRes.respNone, DbRes.resp []⟩ emptyTrace).1 = false :=
  ⟨(insert_stage_outcomes_c6 [] 0
      ⟨DbRes.respNone, DbRes.respNone, DbRes.respNone, DbRes.respNone,
       DbRes.respNone, DbRes.respNone⟩ emptyTrace).1 rfl rfl,
   (insert_stage_outcomes_c6 [] 3
      ⟨DbRes.respNone, DbRes.respNone, DbRes.respNone, DbRes.respNone,
       DbRes.respNone, DbRes.respNone⟩ emptyTrace).2.1 rfl (by decide),
   (insert_stage_outcomes_c6 [⟨⟨"spring", Json.null, "Water", Json.null, 1⟩, Json.str "u"⟩] 0
      ⟨DbRes.respNone, DbRes.respNone, DbRes.respNone, DbRes.respNone,
       DbRes.respNone, DbRes.resp []⟩ emptyTrace).2.2 []
     (fun h => List.noConfusion h) rfl (by decide)⟩
